import Mathlib

/-!
Verification of the interpreter resolution module of python-vsgen-ptvs
(src/vsgenptvs/interpreter.py) against its natural-language specification.

The development shallowly embeds the module: the ambient machine (filesystem,
subprocess launches, the Windows registry viewed as the persistent catalog,
and the current working directory) is a record of oracle functions called
World, and every method of PTVSInterpreter becomes a pure Lean function over
a World.  Fallible Python code is rendered with Except, where each error
constructor stands for one kind of Python exception escaping the call.

Windows path handling (os.path on nt) is modelled by executable functions on
character lists that follow ntpath.join, ntpath.normpath, ntpath.abspath,
ntpath.split and ntpath.splitdrive.  UNC drive prefixes and the case
insensitive filesystem are outside every claim and are not modelled; drives
are letter-colon prefixes, exactly the shape of every path in the claims.
-/

namespace VsgenPtvs

/-- Python whitespace characters recognised by strip and rstrip (ASCII model). -/
def isPySpace (c : Char) : Bool :=
  c == ' ' || c == '\t' || c == '\n' || c == '\r' || c == '\x0b' || c == '\x0c'

/-- Python str.rstrip with no argument: drop trailing whitespace. -/
def pyRstrip (s : String) : String :=
  String.mk ((s.data.reverse.dropWhile isPySpace).reverse)

/-- Python str.strip with no argument: drop whitespace on both ends. -/
def pyStrip (s : String) : String :=
  String.mk (((s.data.dropWhile isPySpace).reverse.dropWhile isPySpace).reverse)

/-- Python str.lower, ASCII model matching the ASCII paths handled here. -/
def pyLower (s : String) : String :=
  String.mk (s.data.map Char.toLower)

/-- Python slicing s[1:-1], used on registry key basenames to peel braces. -/
def pySlice1m1 (s : String) : String :=
  String.mk ((s.data.drop 1).dropLast)

/-- True for the two Windows path separator characters. -/
def isSepChar (c : Char) : Bool := c == '\\' || c == '/'

/-- Replace forward slashes with backslashes, the first step of ntpath.normpath. -/
def toBack (cs : List Char) : List Char :=
  cs.map (fun c => if c == '/' then '\\' else c)

/-- Model of ntpath.splitdrive for letter-colon drive prefixes. -/
def splitDriveL (cs : List Char) : List Char × List Char :=
  match cs with
  | a :: b :: rest => if b == ':' then ([a, b], rest) else ([], cs)
  | _ => ([], cs)

/-- Model of ntpath.isabs: the part after the drive starts with a separator. -/
def isAbsL (cs : List Char) : Bool :=
  match (splitDriveL cs).2 with
  | c :: _ => isSepChar c
  | [] => false

/-- String wrapper for isAbsL. -/
def ntIsAbs (s : String) : Bool := isAbsL s.data

/-- True when the last character is a path separator. -/
def endsWithSepL (cs : List Char) : Bool :=
  match cs.reverse with
  | c :: _ => isSepChar c
  | [] => false

/-- Lowercase a character list, for the drive comparison inside ntpath.join. -/
def lowerL (cs : List Char) : List Char := cs.map Char.toLower

/-- Final assembly step of ntpath.join: reinsert a separator between a UNC
style drive and a relative remainder.  Letter-colon drives never trigger it. -/
def joinFinishL (rd rp : List Char) : List Char :=
  match rp with
  | c :: _ =>
    match rd.reverse with
    | d :: _ => if !(isSepChar c) && !(d == ':') then rd ++ '\\' :: rp else rd ++ rp
    | [] => rd ++ rp
  | [] => rd ++ rp

/-- Relative branch of the ntpath.join step: either the second drive differs
and replaces everything, or the second path is appended behind a separator. -/
def join2RelL (s t : List Char × List Char) : List Char :=
  if !(t.1.isEmpty) && !(lowerL t.1 == lowerL s.1) then joinFinishL t.1 t.2
  else
    let rd := if t.1.isEmpty then s.1 else t.1
    let rp :=
      if !(s.2.isEmpty) && !(endsWithSepL s.2) then s.2 ++ '\\' :: t.2
      else s.2 ++ t.2
    joinFinishL rd rp

/-- Model of the binary ntpath.join step. -/
def join2L (a b : List Char) : List Char :=
  let s := splitDriveL a
  let t := splitDriveL b
  match t.2 with
  | c :: _ =>
    if isSepChar c then
      joinFinishL (if !(t.1.isEmpty) || s.1.isEmpty then t.1 else s.1) t.2
    else join2RelL s t
  | [] => join2RelL s t

/-- The two-character parent-directory component. -/
def dotdot : List Char := ['.', '.']

/-- Split a backslash-only path body into components, one per separator, the
way str.split of the separator behaves in ntpath.normpath. -/
def splitSepL : List Char → List (List Char)
  | [] => [[]]
  | c :: cs =>
    if c == '\\' then [] :: splitSepL cs
    else
      match splitSepL cs with
      | t :: ts => (c :: t) :: ts
      | [] => [[c]]

/-- Component cleanup loop of ntpath.normpath: drop empty and dot components
and cancel parent-directory components against a preceding component. -/
def normFold (isRoot : Bool) : List (List Char) → List (List Char) → List (List Char)
  | acc, [] => acc.reverse
  | acc, comp :: rest =>
    if comp.isEmpty || comp == ['.'] then normFold isRoot acc rest
    else if comp == dotdot then
      match acc with
      | top :: acc2 =>
        if top == dotdot then normFold isRoot (dotdot :: acc) rest
        else normFold isRoot acc2 rest
      | [] => if isRoot then normFold isRoot [] rest else normFold isRoot [dotdot] rest
    else normFold isRoot (comp :: acc) rest

/-- Reassemble components with single backslashes. -/
def intercalateSepL : List (List Char) → List Char
  | [] => []
  | [x] => x
  | x :: y :: ys => x ++ '\\' :: intercalateSepL (y :: ys)

/-- Model of ntpath.normpath on character lists. -/
def ntNormpathL (cs0 : List Char) : List Char :=
  let cs := toBack cs0
  let s := splitDriveL cs
  let isRoot :=
    match s.2 with
    | c :: _ => c == '\\'
    | [] => false
  let body := if isRoot then s.2.dropWhile (fun c => c == '\\') else s.2
  let comps := normFold isRoot [] (splitSepL body)
  let pre := s.1 ++ (if isRoot then ['\\'] else [])
  if pre.isEmpty && comps.isEmpty then ['.']
  else pre ++ intercalateSepL comps

/-- String wrapper for ntNormpathL. -/
def ntNormpath (s : String) : String := String.mk (ntNormpathL s.data)

/-- Model of the binary ntpath.join on strings. -/
def ntJoin (a b : String) : String := String.mk (join2L a.data b.data)

/-- Model of the ternary os.path.join call shape used by the module. -/
def ntJoin3 (a b c : String) : String := ntJoin (ntJoin a b) c

/-- Model of ntpath.split: head before the last separator with its trailing
separators stripped unless that would empty it, tail after the last separator. -/
def splitPathL (cs : List Char) : List Char × List Char :=
  let s := splitDriveL cs
  let r := s.2.reverse
  let tl := (r.takeWhile (fun c => !(isSepChar c))).reverse
  let hdRev := r.dropWhile (fun c => !(isSepChar c))
  let hdStripped := (hdRev.dropWhile isSepChar).reverse
  let hd := if hdStripped.isEmpty then hdRev.reverse else hdStripped
  (s.1 ++ hd, tl)

/-- Model of os.path.basename on Windows. -/
def ntBasename (p : String) : String := String.mk (splitPathL p.data).2

/-- Model of os.path.dirname on Windows. -/
def ntDirname (p : String) : String := String.mk (splitPathL p.data).1

/-! String constants appearing in the module. -/

/-- The empty string default. -/
def sEmpty : String := ""

/-- Console interpreter binary name. -/
def sPythonExe : String := "python.exe"

/-- Windowed interpreter binary name. -/
def sPythonwExe : String := "pythonw.exe"

/-- Scripts subdirectory of a virtual environment. -/
def sScripts : String := "Scripts"

/-- Lib subdirectory of a virtual environment. -/
def sLib : String := "Lib"

/-- Legacy virtualenv marker file name. -/
def sOrigMarkerName : String := "orig-prefix.txt"

/-- Modern venv configuration file name. -/
def sPyvenvCfg : String := "pyvenv.cfg"

/-- The configuration key looked for in pyvenv.cfg. -/
def sHome : String := "home"

/-- Default search path environment variable name. -/
def sPythonPathVar : String := "PYTHONPATH"

/-- Registry value name for the architecture field. -/
def sArchitecture : String := "Architecture"

/-- Registry value name for the description field. -/
def sDescription : String := "Description"

/-- Registry value name for the console interpreter path field. -/
def sInterpreterPath : String := "InterpreterPath"

/-- Registry value name for the version field. -/
def sVersion : String := "Version"

/-- Registry value name for the windowed interpreter path field. -/
def sWindowsInterpreterPath : String := "WindowsInterpreterPath"

/-- Registry value name for the search path variable field. -/
def sPathEnvVar : String := "PathEnvironmentVariable"

/-- Configuration section key listing installation directories. -/
def sectionKeyInterp : String := "interpreter_paths"

/-- Configuration section key listing virtual environment directories. -/
def sectionKeyEnv : String := "environment_paths"

/-- Configuration section key holding the description override. -/
def sectionKeyDesc : String := "description"

/-! The ambient machine. -/

/-- Outcome of one subprocess Popen plus communicate call: either some Python
exception escaped the launch, the communication or the UTF-8 decode (all are
caught by the same except block in the source), or the child completed and
produced the given decoded standard output. -/
inductive PopenResult
  | raised
  | completed (stdout : String)
deriving DecidableEq

/-- Which fixed inline instruction the probe passes to the child interpreter:
the platform architecture script or the version script. -/
inductive ProbeKind
  | arch
  | version
deriving DecidableEq

/-- One kind of Python exception escaping a modelled call.  sectionMissing,
configError and notPresent are the three ValueError raise sites of
from_section, resolve and register; malformedIdentity is the ValueError the
uuid constructor raises on a badly formed entry identity during
reconciliation, which the surrounding except WindowsError handler does not
catch; nameError and typeError are the unbound local and the abspath None
failures of from_virtual_environment. -/
inductive PyError
  | sectionMissing
  | configError
  | notPresent
  | nameError
  | typeError
  | malformedIdentity
deriving DecidableEq

/-- The ambient machine as oracle functions: working directory, filesystem
membership, text file lines, subprocess launches keyed by interpreter path and
probe script, and the HKEY_CURRENT_USER registry: key existence, child key
enumeration (none models a WindowsError raised while enumerating), value reads
(none models a WindowsError raised by the read), and failure flags for key
creation and value writes during registration. -/
structure World where
  cwd : String
  pathExists : String → Bool
  fileLines : String → List String
  popen : String → ProbeKind → PopenResult
  regKeyExists : String → Bool
  regEnum : String → Option (List String)
  regValue : String → String → Option String
  regCreateFails : String → Bool
  regWriteFails : String → String → Bool

/-- Model of os.path.abspath on Windows: join onto the working directory when
relative, then normalise. -/
def ntAbspath (w : World) (p : String) : String :=
  ntNormpath (if ntIsAbs p then p else ntJoin w.cwd p)

/-! The data model. -/

/-- The interpreter descriptor: the instance attributes set by the import
method of PTVSInterpreter.  Identities are modelled as their textual form. -/
structure PTVSInterpreter where
  GUID : String
  BaseInterpreter : String
  Architecture : String
  Version : String
  Path : String
  Description : String
  InterpreterPath : String
  InterpreterAbsPath : String
  WindowsInterpreterPath : String
  WindowsInterpreterAbsPath : String
  PathEnvironmentVariable : String
  VSVersion : Option String
deriving DecidableEq

/-- The keyword argument dictionary handed to the constructor: every key that
the attribute population method looks up, absent keys as none. -/
structure Kwargs where
  Id : Option String := none
  BaseInterpreter : Option String := none
  Architecture : Option String := none
  Version : Option String := none
  Path : Option String := none
  Description : Option String := none
  InterpreterPath : Option String := none
  InterpreterAbsPath : Option String := none
  WindowsInterpreterPath : Option String := none
  WindowsInterpreterAbsPath : Option String := none
  PathEnvironmentVariable : Option String := none
  VSVersion : Option String := none
deriving DecidableEq

/-! The operations, one Lean function per method of PTVSInterpreter. -/

/-- python_architecture: run the child with the fixed architecture script; on
success return standard output with trailing whitespace stripped, on any
caught exception return none.  The function is total, so no exception ever
escapes to the caller. -/
def pythonArchitecture (w : World) (interp : String) : Option String :=
  match w.popen interp ProbeKind.arch with
  | .completed out => some (pyRstrip out)
  | .raised => none

/-- python_version: run the child with the fixed version script; same shape as
the architecture probe. -/
def pythonVersion (w : World) (interp : String) : Option String :=
  match w.popen interp ProbeKind.version with
  | .completed out => some (pyRstrip out)
  | .raised => none

/-- The import method: populate every attribute from the keyword dictionary
with the documented defaults.  The freshly generated uuid1 value is supplied
by the caller as fresh, since identity generation is ambient randomness. -/
def _import (w : World) (fresh : String) (d : Kwargs) : PTVSInterpreter :=
  let guid := (d.Id).getD fresh
  let path := (d.Path).getD sEmpty
  let ip := (d.InterpreterPath).getD sEmpty
  let wip := (d.WindowsInterpreterPath).getD sEmpty
  { GUID := guid
    BaseInterpreter := (d.BaseInterpreter).getD guid
    Architecture := (d.Architecture).getD sEmpty
    Version := (d.Version).getD sEmpty
    Path := path
    Description := (d.Description).getD sEmpty
    InterpreterPath := ip
    InterpreterAbsPath :=
      (d.InterpreterAbsPath).getD (if ntIsAbs ip then ip else ntAbspath w (ntJoin path ip))
    WindowsInterpreterPath := wip
    WindowsInterpreterAbsPath :=
      (d.WindowsInterpreterAbsPath).getD (if ntIsAbs wip then wip else ntAbspath w (ntJoin path wip))
    PathEnvironmentVariable := (d.PathEnvironmentVariable).getD sPythonPathVar
    VSVersion := d.VSVersion }

/-- The str.format instantiation of the class level registry key template. -/
def regkeyName (v : String) : String :=
  ("Software\\Microsoft\\VisualStudio\\") ++ v ++ ("\\PythonTools\\Interpreters")

/-- Python truthiness of the VSVersion attribute: falsy when absent or empty. -/
def vsVersionFalsy (i : PTVSInterpreter) : Bool :=
  match i.VSVersion with
  | none => true
  | some v => v == sEmpty

/-- The six registry value names read from a catalog entry, in the order the
registration method writes them.  Modelled from the spec: the for statement of
from_registry_key naming the values to read is missing from the source (the
block is malformed); section 4.6 of the spec lists these six named fields. -/
def regFieldNames : List String :=
  [sArchitecture, sDescription, sInterpreterPath, sVersion,
   sWindowsInterpreterPath, sPathEnvVar]

/-- Read named values in order until one read raises; the raise is caught by
the surrounding except block, so the values read so far are kept. -/
def readVals (w : World) (key : String) : List String → List (String × String)
  | [] => []
  | n :: rest =>
    match w.regValue key n with
    | some v => (n, v) :: readVals w key rest
    | none => []

/-- from_registry_key: load a descriptor from one catalog entry.  Opening a
missing key raises, caught by the except block, leaving the dictionary empty.
A descriptor is produced only when an interpreter path was read; its root is
the parent directory of that path and its identity is the brace-stripped
basename of the entry key. -/
def fromRegistryKey (w : World) (keyname : String) : Option PTVSInterpreter :=
  let vals := if w.regKeyExists keyname then readVals w keyname regFieldNames else []
  match vals.lookup sInterpreterPath with
  | none => none
  | some ip =>
    some (_import w sEmpty
      { Id := some (pySlice1m1 (ntBasename keyname))
        Architecture := vals.lookup sArchitecture
        Description := vals.lookup sDescription
        InterpreterPath := some ip
        Version := vals.lookup sVersion
        WindowsInterpreterPath := vals.lookup sWindowsInterpreterPath
        PathEnvironmentVariable := vals.lookup sPathEnvVar
        Path := some (ntDirname ip) })

/-- True for an ASCII hexadecimal digit. -/
def isHexDigitB (c : Char) : Bool :=
  (('0' ≤ c) && (c ≤ '9')) || (('a' ≤ c) && (c ≤ 'f')) || (('A' ≤ c) && (c ≤ 'F'))

/-- Numeric value of an ASCII hexadecimal digit. -/
def hexVal (c : Char) : Nat :=
  if ('0' ≤ c) && (c ≤ '9') then c.toNat - ('0').toNat
  else if ('a' ≤ c) && (c ≤ 'f') then c.toNat - ('a').toNat + 10
  else c.toNat - ('A').toNat + 10

/-- Digit run of the Python int literal parser in base 16: hexadecimal digits
with single underscores allowed between digits. -/
def hexAccum (acc : Nat) : List Char → Option Nat
  | [] => some acc
  | '_' :: c :: rest => if isHexDigitB c then hexAccum (acc * 16 + hexVal c) rest else none
  | c :: rest => if isHexDigitB c then hexAccum (acc * 16 + hexVal c) rest else none

/-- A digit run must begin with a digit, never an underscore. -/
def hexStart : List Char → Option Nat
  | c :: rest => if isHexDigitB c then hexAccum (hexVal c) rest else none
  | [] => none

/-- Model of the Python call int(s, 16): strip surrounding whitespace, accept
an optional sign, an optional 0x or 0X prefix (with one optional underscore
directly after it), then a nonempty digit run; none models the ValueError.
ASCII model: the nonascii whitespace and digit forms int also accepts are
outside every identity in scope. -/
def pyIntHex (cs0 : List Char) : Option Int :=
  let cs1 := ((cs0.dropWhile isPySpace).reverse.dropWhile isPySpace).reverse
  let signed : Int × List Char :=
    match cs1 with
    | '+' :: rest => (1, rest)
    | '-' :: rest => (-1, rest)
    | _ => (1, cs1)
  let digits :=
    match signed.2 with
    | '0' :: x :: rest =>
      if (x == 'x') || (x == 'X') then
        match rest with
        | '_' :: r2 => hexStart r2
        | r2 => hexStart r2
      else hexStart signed.2
    | _ => hexStart signed.2
  digits.map (fun n => signed.1 * Int.ofNat n)

/-- The 128 bit value as 32 zero padded lowercase hexadecimal characters. -/
def natToHex32 (n : Nat) : List Char :=
  let ds := Nat.toDigits 16 n
  List.replicate (32 - ds.length) '0' ++ ds

/-- The canonical text form str of a uuid value: 8-4-4-4-12 lowercase. -/
def uuidCanonical (n : Nat) : String :=
  let h := natToHex32 n
  String.mk (h.take 8 ++ '-' :: ((h.drop 8).take 4) ++ '-' :: ((h.drop 12).take 4)
    ++ '-' :: ((h.drop 16).take 4) ++ '-' :: (h.drop 20))

/-- Drop every occurrence of the four characters urn colon, scanning left to
right as str.replace with an empty replacement does. -/
def dropUrnColon : List Char → List Char
  | 'u' :: 'r' :: 'n' :: ':' :: rest => dropUrnColon rest
  | c :: rest => c :: dropUrnColon rest
  | [] => []

/-- Drop every occurrence of the five characters uuid colon, as str.replace
with an empty replacement does. -/
def dropUuidColon : List Char → List Char
  | 'u' :: 'u' :: 'i' :: 'd' :: ':' :: rest => dropUuidColon rest
  | c :: rest => c :: dropUuidColon rest
  | [] => []

/-- Python str.strip of the two brace characters from both ends. -/
def stripBraces (cs : List Char) : List Char :=
  ((cs.dropWhile (fun c => (c == '\x7b') || (c == '\x7d'))).reverse.dropWhile
    (fun c => (c == '\x7b') || (c == '\x7d'))).reverse

/-- Model of the uuid.UUID constructor on a hex string, returning the
canonical text form of the parsed value, or none for the ValueError it
raises: drop the urn and uuid prefixes wherever they occur, strip braces,
remove every dash, require exactly 32 remaining characters, parse them as a
base 16 int literal, and require the 128 bit range as the constructor does. -/
def uuidParse (s : String) : Option String :=
  let cs := stripBraces (dropUuidColon (dropUrnColon s.data))
  let cs := cs.filter (fun c => !(c == '-'))
  if cs.length == 32 then
    match pyIntHex cs with
    | some n => if 0 ≤ n ∧ n < (2 : Int)^128 then some (uuidCanonical n.toNat) else none
    | none => none
  else none

/-- The enumeration loop of resolve: load each child entry, compare console
interpreter paths case insensitively; on the first match the entry identity
is parsed by the uuid constructor and its canonical form adopted as both
identity fields, stopping the loop, while a malformed identity raises the
ValueError, which the except WindowsError handler around the loop does not
catch. -/
def resolveScan (w : World) (rk : String) (self : PTVSInterpreter) :
    List String → Except PyError PTVSInterpreter
  | [] => .ok self
  | n :: rest =>
    match fromRegistryKey w (rk ++ ("\\") ++ n) with
    | some e =>
      if pyLower e.InterpreterAbsPath == pyLower self.InterpreterAbsPath then
        match uuidParse e.GUID with
        | some g => .ok { self with GUID := g, BaseInterpreter := g }
        | none => .error .malformedIdentity
      else resolveScan w rk self rest
    | none => resolveScan w rk self rest

/-- resolve: require a truthy VSVersion, require the parent of the catalog key
to exist, then enumerate children and reconcile; a WindowsError raised while
enumerating is caught and leaves the descriptor unchanged, but the ValueError
from a malformed matching identity propagates. -/
def resolve (w : World) (self : PTVSInterpreter) : Except PyError PTVSInterpreter :=
  match self.VSVersion with
  | none => .error .configError
  | some v =>
    if v == sEmpty then .error .configError
    else
      let rk := regkeyName v
      if w.regKeyExists (ntDirname rk) then
        match w.regEnum rk with
        | none => .ok self
        | some names => resolveScan w rk self names
      else .error .notPresent

/-- Outcome of register: the boolean result, with the successful case carrying
the entry key and the (value name, value) pairs written, as the observable
record of the SetValueEx calls. -/
inductive RegisterOutcome
  | success (entryKey : String) (writes : List (String × String))
  | failure
deriving DecidableEq

/-- The six SetValueEx writes of register, in source order. -/
def registerWrites (self : PTVSInterpreter) : List (String × String) :=
  [(sArchitecture, self.Architecture),
   (sDescription, self.Description),
   (sInterpreterPath, self.InterpreterAbsPath),
   (sVersion, self.Version),
   (sWindowsInterpreterPath, self.WindowsInterpreterAbsPath),
   (sPathEnvVar, self.PathEnvironmentVariable)]

/-- The catalog entry key register writes to: the catalog version root joined
with the braced lowercase identity.  The lower helper of the external
VSGRegisterable base renders a value as lowercase text. -/
def registerEntryKey (v : String) (self : PTVSInterpreter) : String :=
  regkeyName v ++ ("\\\x7b") ++ pyLower self.GUID ++ ("\x7d")

/-- register: same preconditions as resolve, then create the entry and write
the six fields; a WindowsError from the creation or any write is caught and
reported as the boolean failure result. -/
def register (w : World) (self : PTVSInterpreter) : Except PyError RegisterOutcome :=
  match self.VSVersion with
  | none => .error .configError
  | some v =>
    if v == sEmpty then .error .configError
    else
      let rk := regkeyName v
      if w.regKeyExists (ntDirname rk) then
        let key := registerEntryKey v self
        if w.regCreateFails key then .ok .failure
        else if (registerWrites self).any (fun p => w.regWriteFails key p.1) then .ok .failure
        else .ok (.success key (registerWrites self))
      else .error .notPresent

/-- The absolute console interpreter path probed under an installation root. -/
def pyInstallPython (w : World) (root : String) : String :=
  ntAbspath w (ntJoin root sPythonExe)

/-- The duplicated probe block of both factories: set Version then
Architecture only when the probe returned a truthy (nonempty) result. -/
def applyProbes (w : World) (python : String) (args : Kwargs) : Kwargs :=
  let args :=
    match pythonVersion w python with
    | some v => if v == sEmpty then args else { args with Version := some v }
    | none => args
  match pythonArchitecture w python with
  | some a => if a == sEmpty then args else { args with Architecture := some a }
  | none => args

/-- Python truthiness of the VSVersion keyword argument. -/
def vsFalsyK (k : Kwargs) : Bool :=
  match k.VSVersion with
  | none => true
  | some v => v == sEmpty

/-- The dictionary update block of from_python_installation: overwrite Path
and InterpreterPath, default the Description to the basename of the root. -/
def instArgs (k : Kwargs) (root : String) : Kwargs :=
  { k with
    Path := some root
    InterpreterPath := some sPythonExe
    Description := some ((k.Description).getD (ntBasename root)) }

/-- The conditional windowed interpreter record of from_python_installation. -/
def instArgsW (w : World) (k : Kwargs) (root : String) : Kwargs :=
  if w.pathExists (ntJoin root sPythonwExe) then
    { instArgs k root with WindowsInterpreterPath := some sPythonwExe }
  else instArgs k root

/-- from_python_installation: require python.exe directly under the root,
assemble the field set with the basename description default, record
pythonw.exe when present, probe, construct, and immediately resolve against
the catalog; errors raised by resolve propagate. -/
def fromPythonInstallation (w : World) (fresh : String) (kwargs : Kwargs)
    (directory : String) : Except PyError (Option PTVSInterpreter) :=
  let root := ntAbspath w directory
  let python := pyInstallPython w root
  if w.pathExists python then
    match resolve w (_import w fresh (applyProbes w python (instArgsW w kwargs root))) with
    | .ok j => .ok (some j)
    | .error e => .error e
  else .ok none

/-- The absolute console interpreter path of a virtual environment root. -/
def venvPython (w : World) (root : String) : String :=
  ntAbspath w (ntJoin3 root sScripts sPythonExe)

/-- The absolute legacy marker file path of a virtual environment root. -/
def venvOrigMarker (w : World) (root : String) : String :=
  ntAbspath w (ntJoin3 root sLib sOrigMarkerName)

/-- The absolute modern configuration file path of a virtual environment root. -/
def venvCfgPath (w : World) (root : String) : String :=
  ntAbspath w (ntJoin root sPyvenvCfg)

/-- Python str.partition at the first equals sign, returning before and after
when one occurs; none models the line failing the containment guard. -/
def partitionEqL (cs : List Char) : Option (List Char × List Char) :=
  let pre := cs.takeWhile (fun c => !(c == '='))
  match cs.dropWhile (fun c => !(c == '=')) with
  | _ :: after => some (pre, after)
  | [] => none

/-- The pyvenv.cfg loop: over every line holding an equals sign, the stripped
lowercased key is compared with home and the stripped value overwrites the
base directory, so the last home line wins. -/
def cfgHome (ls : List String) : Option String :=
  ls.foldl
    (fun acc line =>
      match partitionEqL line.data with
      | some kv =>
        if pyLower (pyStrip (String.mk kv.1)) == sHome then some (pyStrip (String.mk kv.2))
        else acc
      | none => acc)
    none

/-- State of the basedir local variable after the two marker reads: never
assigned, assigned the Python None from an empty legacy marker, or assigned a
directory string. -/
inductive BaseAssign
  | unbound
  | pyNone
  | dir (d : String)
deriving DecidableEq

/-- The marker reading block of from_virtual_environment: the legacy marker
first line when that file exists, overridden by the home value of pyvenv.cfg
when that file exists and holds one. -/
def venvBase (w : World) (root : String) : BaseAssign :=
  let b1 :=
    if w.pathExists (venvOrigMarker w root) then
      match (w.fileLines (venvOrigMarker w root)).head? with
      | some l => BaseAssign.dir (pyRstrip l)
      | none => BaseAssign.pyNone
    else BaseAssign.unbound
  if w.pathExists (venvCfgPath w root) then
    match cfgHome (w.fileLines (venvCfgPath w root)) with
    | some v => BaseAssign.dir v
    | none => b1
  else b1

/-- The dictionary update block of from_virtual_environment: overwrite Path,
BaseInterpreter and the relative interpreter path, default the Description to
the environment name with the base description in parentheses. -/
def venvArgs (k : Kwargs) (root : String) (baseinterp : PTVSInterpreter) : Kwargs :=
  { k with
    Path := some root
    BaseInterpreter := some baseinterp.GUID
    InterpreterPath := some (ntJoin sScripts sPythonExe)
    Description := some ((k.Description).getD
      (ntBasename root ++ (" (") ++ baseinterp.Description ++ (")"))) }

/-- The conditional windowed interpreter record of from_virtual_environment. -/
def venvArgsW (w : World) (k : Kwargs) (root : String) (baseinterp : PTVSInterpreter) : Kwargs :=
  if w.pathExists (ntJoin3 root sScripts sPythonwExe) then
    { venvArgs k root baseinterp with WindowsInterpreterPath := some (ntJoin sScripts sPythonwExe) }
  else venvArgs k root baseinterp

/-- from_virtual_environment: require Scripts python.exe, require at least one
marker file, read the base directory, recursively resolve it as an
installation, then assemble the environment descriptor.  An unassigned
basedir raises an unbound local name error; a Python None basedir raises a
type error inside abspath; errors from the base resolution propagate. -/
def fromVirtualEnvironment (w : World) (freshBase freshEnv : String) (kwargs : Kwargs)
    (directory : String) : Except PyError (Option PTVSInterpreter) :=
  let root := ntAbspath w directory
  let python := venvPython w root
  if w.pathExists python then
    if !(w.pathExists (venvOrigMarker w root)) && !(w.pathExists (venvCfgPath w root)) then
      .ok none
    else
      match venvBase w root with
      | .unbound => .error .nameError
      | .pyNone => .error .typeError
      | .dir basedir =>
        match fromPythonInstallation w freshBase kwargs basedir with
        | .error e => .error e
        | .ok none => .ok none
        | .ok (some baseinterp) =>
          .ok (some (_import w freshEnv
            (applyProbes w python (venvArgsW w kwargs root baseinterp))))
  else .ok none

/-- The external configuration reader: section membership, the directory list
variant with an empty fallback folded in, and the plain get with the caller
supplied fallback handled at the call site. -/
structure Config where
  sections : List String
  getdirs : String → String → List String
  get : String → String → Option String

/-- A Python sequence value as from_section returns it: either a plain list
object, or a filter iterator that was already consumed, remembering the
elements it yielded before exhaustion. -/
inductive PySeq (α : Type)
  | list (xs : List α)
  | exhaustedIter (consumed : List α)
deriving DecidableEq

/-- What a caller iterating the returned value receives. -/
def PySeq.toCallerList {α : Type} : PySeq α → List α
  | .list xs => xs
  | .exhaustedIter _ => []

/-- The eager list comprehension over installation directories; any raised
resolution error propagates out of the comprehension. -/
def resolveAllInst (w : World) (freshs : Nat → String) (k : Kwargs) :
    Nat → List String → Except PyError (List (Option PTVSInterpreter))
  | _, [] => .ok []
  | i, p :: rest => do
    let x ← fromPythonInstallation w (freshs i) k p
    let xs ← resolveAllInst w freshs k (i + 1) rest
    pure (x :: xs)

/-- The eager list comprehension over environment directories; each entry
consumes two fresh identities, one for the base and one for the environment. -/
def resolveAllEnv (w : World) (freshs : Nat → String) (k : Kwargs) :
    Nat → List String → Except PyError (List (Option PTVSInterpreter))
  | _, [] => .ok []
  | i, p :: rest => do
    let x ← fromVirtualEnvironment w (freshs (2 * i)) (freshs (2 * i + 1)) k p
    let xs ← resolveAllEnv w freshs k (i + 1) rest
    pure (x :: xs)

/-- from_section under Python 3 semantics, which the module imports commit it
to (it imports configparser unconditionally): a missing section raises; the
chosen branch builds a lazy filter over the eager comprehension; the
description override loop then consumes that filter while mutating each
descriptor, so the value returned to the caller is the already exhausted
iterator, recorded here together with the consumed, mutated descriptors. -/
def fromSection (w : World) (freshs : Nat → String) (kwargs : Kwargs)
    (config : Config) (sect : String) : Except PyError (PySeq PTVSInterpreter) :=
  if config.sections.contains sect then
    let ips := config.getdirs sect sectionKeyInterp
    let eps := config.getdirs sect sectionKeyEnv
    if !ips.isEmpty then do
      let rs ← resolveAllInst w freshs kwargs 0 ips
      let descs := (rs.filterMap id).map (fun i =>
        { i with Description := (config.get sect sectionKeyDesc).getD i.Description })
      pure (PySeq.exhaustedIter descs)
    else if !eps.isEmpty then do
      let rs ← resolveAllEnv w freshs kwargs 0 eps
      let descs := (rs.filterMap id).map (fun i =>
        { i with Description := (config.get sect sectionKeyDesc).getD i.Description })
      pure (PySeq.exhaustedIter descs)
    else .ok (PySeq.list [])
  else .error .sectionMissing

/-! Concrete machines used by the witnesses below. -/

/-- A machine holding one Python installation at C:\Python39, a catalog root
for version 15.0 with no entries, silent probes, and reliable writes. -/
def w39 : World :=
  { cwd := ("C:\\")
    pathExists := fun p => p == ("C:\\Python39\\python.exe")
    fileLines := fun _ => []
    popen := fun _ _ => PopenResult.raised
    regKeyExists := fun k => k == ("Software\\Microsoft\\VisualStudio\\15.0\\PythonTools")
    regEnum := fun k =>
      if k == ("Software\\Microsoft\\VisualStudio\\15.0\\PythonTools\\Interpreters") then some []
      else none
    regValue := fun _ _ => none
    regCreateFails := fun _ => false
    regWriteFails := fun _ _ => false }

/-- Keyword arguments selecting catalog version 15.0. -/
def kwargs15 : Kwargs := { VSVersion := some ("15.0") }

/-- The descriptor w39 yields for C:\Python39 under kwargs15 and fresh
identity g1. -/
def iPy39 : PTVSInterpreter :=
  { GUID := ("g1")
    BaseInterpreter := ("g1")
    Architecture := sEmpty
    Version := sEmpty
    Path := ("C:\\Python39")
    Description := ("Python39")
    InterpreterPath := sPythonExe
    InterpreterAbsPath := ("C:\\Python39\\python.exe")
    WindowsInterpreterPath := sEmpty
    WindowsInterpreterAbsPath := ("C:\\Python39")
    PathEnvironmentVariable := sPythonPathVar
    VSVersion := some ("15.0") }

/-- The well formed catalog identity used by the reconciliation witness; it
is already in the canonical lowercase form, so the uuid constructor returns
it unchanged. -/
def uuidG : String := "12345678-1234-5678-1234-567812345678"

/-- A catalog holding two entries under version 15.0: the first unreadable,
the second describing the same interpreter path in different case under a
well formed braced identity. -/
def wMatch : World :=
  { w39 with
    regKeyExists := fun k =>
      k == ("Software\\Microsoft\\VisualStudio\\15.0\\PythonTools")
      || k == ("Software\\Microsoft\\VisualStudio\\15.0\\PythonTools\\Interpreters\\\x7b12345678-1234-5678-1234-567812345678\x7d")
    regEnum := fun k =>
      if k == ("Software\\Microsoft\\VisualStudio\\15.0\\PythonTools\\Interpreters") then
        some [("\x7babc-1\x7d"), ("\x7b12345678-1234-5678-1234-567812345678\x7d")]
      else none
    regValue := fun k n =>
      if k == ("Software\\Microsoft\\VisualStudio\\15.0\\PythonTools\\Interpreters\\\x7b12345678-1234-5678-1234-567812345678\x7d") then
        if n == sArchitecture then some ("x64")
        else if n == sDescription then some ("Python 3.9")
        else if n == sInterpreterPath then some ("C:\\PYTHON39\\PYTHON.EXE")
        else if n == sVersion then some ("3.9")
        else if n == sWindowsInterpreterPath then some ("C:\\PYTHON39\\PYTHONW.EXE")
        else if n == sPathEnvVar then some ("PYTHONPATH")
        else none
      else none }

/-- A catalog holding one entry whose interpreter path matches but whose
identity abc-2 is not a well formed uuid: the adoption step raises. -/
def wMatchBad : World :=
  { w39 with
    regKeyExists := fun k =>
      k == ("Software\\Microsoft\\VisualStudio\\15.0\\PythonTools")
      || k == ("Software\\Microsoft\\VisualStudio\\15.0\\PythonTools\\Interpreters\\\x7babc-2\x7d")
    regEnum := fun k =>
      if k == ("Software\\Microsoft\\VisualStudio\\15.0\\PythonTools\\Interpreters") then
        some [("\x7babc-2\x7d")]
      else none
    regValue := fun k n =>
      if k == ("Software\\Microsoft\\VisualStudio\\15.0\\PythonTools\\Interpreters\\\x7babc-2\x7d") then
        if n == sArchitecture then some ("x64")
        else if n == sDescription then some ("Python 3.9")
        else if n == sInterpreterPath then some ("C:\\PYTHON39\\PYTHON.EXE")
        else if n == sVersion then some ("3.9")
        else if n == sWindowsInterpreterPath then some ("C:\\PYTHON39\\PYTHONW.EXE")
        else if n == sPathEnvVar then some ("PYTHONPATH")
        else none
      else none }

/-- A machine like w39 whose write of the Version value fails. -/
def wWriteFail : World :=
  { w39 with regWriteFails := fun _ n => n == sVersion }

/-- A machine holding a virtual environment at C:\envs\my with both marker
files, whose legacy marker names C:\Old39 while pyvenv.cfg names C:\Python39,
and the base installation at C:\Python39. -/
def wVenv : World :=
  { w39 with
    pathExists := fun p =>
      p == ("C:\\envs\\my\\Scripts\\python.exe")
      || p == ("C:\\envs\\my\\Lib\\orig-prefix.txt")
      || p == ("C:\\envs\\my\\pyvenv.cfg")
      || p == ("C:\\Python39\\python.exe")
    fileLines := fun p =>
      if p == ("C:\\envs\\my\\Lib\\orig-prefix.txt") then [("C:\\Old39")]
      else if p == ("C:\\envs\\my\\pyvenv.cfg") then [("home = C:\\Python39")]
      else [] }

/-- A machine holding a virtual environment whose only marker is a pyvenv.cfg
with no home line. -/
def wVenvNoHome : World :=
  { w39 with
    pathExists := fun p =>
      p == ("C:\\envs\\my\\Scripts\\python.exe") || p == ("C:\\envs\\my\\pyvenv.cfg")
    fileLines := fun p =>
      if p == ("C:\\envs\\my\\pyvenv.cfg") then [("version = 3.9.1")] else [] }

/-- A machine whose architecture probe of C:\Python39 completes with trailing
whitespace on its output while the version probe raises. -/
def wProbe : World :=
  { w39 with
    popen := fun p k =>
      if p == ("C:\\Python39\\python.exe") && k == ProbeKind.arch then
        PopenResult.completed ("x64\n")
      else PopenResult.raised }

/-- A configuration with one section named ptvs listing C:\Python39 as the
single installation directory and carrying a description override. -/
def cfgC1 : Config :=
  { sections := [("ptvs")]
    getdirs := fun s k =>
      if s == ("ptvs") && k == sectionKeyInterp then [("C:\\Python39")] else []
    get := fun s k =>
      if s == ("ptvs") && k == sectionKeyDesc then some ("Custom Python") else none }

/-- A machine holding a virtual environment at C:\envs\my with the console
interpreter but neither marker file. -/
def wVenvBare : World :=
  { w39 with
    pathExists := fun p => p == ("C:\\envs\\my\\Scripts\\python.exe")
    fileLines := fun _ => [] }

/-- The descriptor wMatch stores under the well formed identity, as the entry
loader reconstructs it. -/
def eUuid : PTVSInterpreter :=
  { GUID := uuidG
    BaseInterpreter := uuidG
    Architecture := ("x64")
    Version := ("3.9")
    Path := ("C:\\PYTHON39")
    Description := ("Python 3.9")
    InterpreterPath := ("C:\\PYTHON39\\PYTHON.EXE")
    InterpreterAbsPath := ("C:\\PYTHON39\\PYTHON.EXE")
    WindowsInterpreterPath := ("C:\\PYTHON39\\PYTHONW.EXE")
    WindowsInterpreterAbsPath := ("C:\\PYTHON39\\PYTHONW.EXE")
    PathEnvironmentVariable := sPythonPathVar
    VSVersion := none }

/-- True when the enumeration step for child name n is not a match: either
the entry fails to load, or it loads with a different lowercased console
interpreter path. -/
def noMatchB (w : World) (rk : String) (self : PTVSInterpreter) (n : String) : Bool :=
  match fromRegistryKey w (rk ++ ("\\") ++ n) with
  | some e => !(pyLower e.InterpreterAbsPath == pyLower self.InterpreterAbsPath)
  | none => true

/-- A path component that survives normalisation untouched: nonempty, not a
dot or parent component, and free of separators and colons. -/
def cleanCompB (c : List Char) : Bool :=
  !(c.isEmpty) && !(c == ['.']) && !(c == dotdot)
    && c.all (fun x => !(x == '\\') && !(x == '/') && !(x == ':'))

/-- An acceptable drive prefix: empty, or a letter-colon pair whose first
character is not a separator or colon. -/
def driveOkB : List Char → Bool
  | [] => true
  | [a, b] => b == ':' && !(a == '\\') && !(a == '/') && !(a == ':')
  | _ => false

/-- A string is a normalised absolute directory path: an acceptable drive,
a root separator, and a nonempty list of clean components joined by single
backslashes.  Every output of abspath on the directories in scope has this
shape. -/
def NormalAbs (p : String) : Prop :=
  ∃ d comps, driveOkB d = true ∧ comps ≠ [] ∧ (∀ c ∈ comps, cleanCompB c = true) ∧
    p.data = d ++ '\\' :: intercalateSepL comps

/-! Lemmas about the path model on normalised absolute roots. -/

lemma splitSepL_cons_sep (cs : List Char) : splitSepL ('\\' :: cs) = [] :: splitSepL cs := by
  rw [splitSepL]
  simp

lemma splitSepL_cons_nonsep {c : Char} (cs : List Char) (hc : ¬(c == '\\'))
    {t : List Char} {ts : List (List Char)} (h : splitSepL cs = t :: ts) :
    splitSepL (c :: cs) = (c :: t) :: ts := by
  rw [splitSepL]
  simp only [hc, Bool.false_eq_true, if_false]
  rw [h]

lemma splitSepL_ne_nil (cs : List Char) : splitSepL cs ≠ [] := by
  induction cs with
  | nil => simp [splitSepL]
  | cons c cs ih =>
    by_cases hc : c == '\\'
    · have hce : c = '\\' := by simpa using hc
      subst hce
      rw [splitSepL_cons_sep]
      simp
    · obtain ⟨t, ts, h⟩ : ∃ t ts, splitSepL cs = t :: ts := by
        cases h : splitSepL cs with
        | nil => exact absurd h ih
        | cons t ts => exact ⟨t, ts, rfl⟩
      rw [splitSepL_cons_nonsep cs hc h]
      simp

lemma splitSepL_append_sep (xs ys : List Char) :
    splitSepL (xs ++ '\\' :: ys) = splitSepL xs ++ splitSepL ys := by
  induction xs with
  | nil =>
    rw [List.nil_append, splitSepL_cons_sep]
    rfl
  | cons c cs ih =>
    by_cases hc : c == '\\'
    · have hce : c = '\\' := by simpa using hc
      subst hce
      rw [List.cons_append, splitSepL_cons_sep, splitSepL_cons_sep, ih]
      rfl
    · obtain ⟨t, ts, h⟩ : ∃ t ts, splitSepL cs = t :: ts := by
        cases h : splitSepL cs with
        | nil => exact absurd h (splitSepL_ne_nil cs)
        | cons t ts => exact ⟨t, ts, rfl⟩
      have h2 : splitSepL (cs ++ '\\' :: ys) = t :: (ts ++ splitSepL ys) := by
        rw [ih, h]
        rfl
      rw [List.cons_append, splitSepL_cons_nonsep (cs ++ '\\' :: ys) hc h2,
        splitSepL_cons_nonsep cs hc h]
      rfl

lemma splitSepL_no_sep (cs : List Char) (h : ∀ x ∈ cs, ¬(x == '\\')) :
    splitSepL cs = [cs] := by
  induction cs with
  | nil => rfl
  | cons c cs ih =>
    have hc := h c (List.mem_cons_self c cs)
    have hrec := ih (fun x hx => h x (List.mem_cons_of_mem c hx))
    rw [splitSepL_cons_nonsep cs hc hrec]

lemma cleanComp_chars {c : List Char} {x : Char} (hc : cleanCompB c = true) (hx : x ∈ c) :
    ¬(x == '\\') ∧ ¬(x == '/') ∧ ¬(x == ':') := by
  unfold cleanCompB at hc
  simp only [Bool.and_eq_true, List.all_eq_true] at hc
  have := hc.2 x hx
  simp only [Bool.and_eq_true, Bool.not_eq_true'] at this
  refine ⟨?_, ?_, ?_⟩ <;> simp [this.1.1, this.1.2, this.2]

lemma cleanComp_ne_nil {c : List Char} (hc : cleanCompB c = true) : c ≠ [] := by
  intro h
  subst h
  exact absurd hc (by decide)

lemma mem_intercalateSepL {x : Char} :
    ∀ {comps : List (List Char)}, x ∈ intercalateSepL comps →
      x = '\\' ∨ ∃ c ∈ comps, x ∈ c := by
  intro comps
  induction comps with
  | nil => simp [intercalateSepL]
  | cons c rest ih =>
    cases rest with
    | nil =>
      intro hx
      exact Or.inr ⟨c, List.mem_cons_self c [], hx⟩
    | cons y ys =>
      intro hx
      simp only [intercalateSepL] at hx
      rcases List.mem_append.mp hx with h1 | h2
      · exact Or.inr ⟨c, List.mem_cons_self c (y :: ys), h1⟩
      · rcases List.mem_cons.mp h2 with h3 | h4
        · exact Or.inl h3
        · rcases ih h4 with h5 | ⟨c2, hc2, hxc2⟩
          · exact Or.inl h5
          · exact Or.inr ⟨c2, List.mem_cons_of_mem c hc2, hxc2⟩

lemma intercalateSepL_head {c0 : List Char} (cs : List (List Char))
    (h0 : cleanCompB c0 = true) :
    ∃ y ys, intercalateSepL (c0 :: cs) = y :: ys ∧ y ∈ c0 := by
  obtain ⟨y, c0t, rfl⟩ := List.exists_cons_of_ne_nil (cleanComp_ne_nil h0)
  cases cs with
  | nil => exact ⟨y, c0t, rfl, List.mem_cons_self y c0t⟩
  | cons z zs =>
    exact ⟨y, c0t ++ '\\' :: intercalateSepL (z :: zs), rfl, List.mem_cons_self y c0t⟩

lemma intercalateSepL_last :
    ∀ comps : List (List Char), comps ≠ [] →
      (∀ c ∈ comps, cleanCompB c = true) →
      ∃ z zs, (intercalateSepL comps).reverse = z :: zs ∧ ¬(isSepChar z)
  | [], hc, _ => absurd rfl hc
  | [c], _, hclean => by
    have hcl := hclean c (List.mem_cons_self c [])
    have hne : c.reverse ≠ [] := by
      simpa [List.reverse_eq_nil_iff] using cleanComp_ne_nil hcl
    obtain ⟨z, zs, hz⟩ := List.exists_cons_of_ne_nil hne
    refine ⟨z, zs, by simpa [intercalateSepL] using hz, ?_⟩
    have hzc : z ∈ c := by
      have : z ∈ c.reverse := by
        rw [hz]
        exact List.mem_cons_self z zs
      simpa [List.mem_reverse] using this
    have hch := cleanComp_chars hcl hzc
    simp [isSepChar, hch.1, hch.2.1]
  | c :: y :: ys, _, hclean => by
    obtain ⟨z, zs, hz, hns⟩ := intercalateSepL_last (y :: ys) (by simp)
      (fun x hx => hclean x (List.mem_cons_of_mem c hx))
    refine ⟨z, zs ++ '\\' :: c.reverse, ?_, hns⟩
    show (c ++ '\\' :: intercalateSepL (y :: ys)).reverse = _
    rw [List.reverse_append, List.reverse_cons, hz]
    simp [List.append_assoc]

lemma intercalateSepL_append_single :
    ∀ comps : List (List Char), comps ≠ [] → ∀ x : List Char,
      intercalateSepL (comps ++ [x]) = intercalateSepL comps ++ '\\' :: x
  | [], hc, _ => absurd rfl hc
  | [c], _, x => rfl
  | c :: y :: ys, _, x => by
    show c ++ '\\' :: intercalateSepL ((y :: ys) ++ [x])
        = (c ++ '\\' :: intercalateSepL (y :: ys)) ++ '\\' :: x
    rw [intercalateSepL_append_single (y :: ys) (by simp) x]
    simp [List.append_assoc]

lemma toBack_eq_self : ∀ cs : List Char, (∀ x ∈ cs, ¬(x == '/')) → toBack cs = cs
  | [], _ => rfl
  | c :: cs, h => by
    have hc : ¬(c == '/') := h c (List.mem_cons_self c cs)
    show (if c == '/' then '\\' else c) :: toBack cs = c :: cs
    rw [if_neg hc, toBack_eq_self cs (fun x hx => h x (List.mem_cons_of_mem c hx))]

lemma driveOk_shape (d : List Char) (hd : driveOkB d = true) :
    d = [] ∨ ∃ a, d = [a, ':'] ∧ ¬(a == '\\') ∧ ¬(a == '/') ∧ ¬(a == ':') := by
  cases d with
  | nil => exact Or.inl rfl
  | cons a d1 =>
    cases d1 with
    | nil => exact absurd hd (by simp [driveOkB])
    | cons b d2 =>
      cases d2 with
      | nil =>
        have h := hd
        simp only [driveOkB, Bool.and_eq_true, Bool.not_eq_true'] at h
        have hb : b = ':' := by
          have := h.1.1.1
          simpa using this
        subst hb
        refine Or.inr ⟨a, rfl, ?_, ?_, ?_⟩
        · simp [h.1.1.2]
        · simp [h.1.2]
        · simp [h.2]
      | cons e d3 => exact absurd hd (by simp [driveOkB])

lemma splitDriveL_drive_root (d X : List Char) (hd : driveOkB d = true)
    (hX : ∀ x xs, X = x :: xs → ¬(x == ':')) :
    splitDriveL (d ++ '\\' :: X) = (d, '\\' :: X) := by
  rcases driveOk_shape d hd with rfl | ⟨a, rfl, _, _, _⟩
  · cases X with
    | nil => rfl
    | cons x xs =>
      have hx := hX x xs rfl
      show (if x == ':' then (['\\', x], xs) else ([], '\\' :: x :: xs)) = ([], '\\' :: x :: xs)
      rw [if_neg hx]
  · show (if ':' == ':' then ([a, ':'], '\\' :: X) else ([], a :: ':' :: '\\' :: X))
        = ([a, ':'], '\\' :: X)
    rw [if_pos (by decide)]

lemma normFold_clean_front (isRoot : Bool) :
    ∀ comps : List (List Char), (∀ c ∈ comps, cleanCompB c = true) →
      ∀ acc tail : List (List Char),
        normFold isRoot acc (comps ++ tail) = normFold isRoot (comps.reverse ++ acc) tail
  | [], _, acc, tail => by simp
  | c :: rest, hclean, acc, tail => by
    have hcl := hclean c (List.mem_cons_self c rest)
    simp only [cleanCompB, Bool.and_eq_true, Bool.not_eq_true'] at hcl
    have h1 : c.isEmpty = false := hcl.1.1.1
    have h2 : (c == ['.']) = false := hcl.1.1.2
    have h3 : (c == dotdot) = false := hcl.1.2
    rw [List.cons_append]
    show normFold isRoot acc (c :: (rest ++ tail)) = _
    rw [normFold.eq_def]
    simp only [h1, h2, h3, Bool.or_self, Bool.false_eq_true, if_false]
    rw [normFold_clean_front isRoot rest
      (fun x hx => hclean x (List.mem_cons_of_mem c hx)) (c :: acc) tail]
    simp [List.append_assoc]

lemma normFold_clean (isRoot : Bool) (comps : List (List Char))
    (hclean : ∀ c ∈ comps, cleanCompB c = true) :
    normFold isRoot [] comps = comps := by
  have h := normFold_clean_front isRoot comps hclean [] []
  rw [List.append_nil] at h
  rw [h, normFold.eq_def]
  simp

lemma normFold_clean_trailing (isRoot : Bool) (comps : List (List Char))
    (hclean : ∀ c ∈ comps, cleanCompB c = true) :
    normFold isRoot [] (comps ++ [[]]) = comps := by
  rw [normFold_clean_front isRoot comps hclean [] [[]]]
  rw [normFold.eq_def]
  simp only [List.isEmpty_nil, Bool.true_or, if_true]
  rw [normFold.eq_def]
  simp

lemma splitSepL_intercalate :
    ∀ comps : List (List Char), comps ≠ [] → (∀ c ∈ comps, cleanCompB c = true) →
      splitSepL (intercalateSepL comps) = comps
  | [], hc, _ => absurd rfl hc
  | [c], _, hclean => by
    show splitSepL c = [c]
    exact splitSepL_no_sep c (fun x hx => (cleanComp_chars (hclean c (by simp)) hx).1)
  | c :: y :: ys, _, hclean => by
    show splitSepL (c ++ '\\' :: intercalateSepL (y :: ys)) = c :: y :: ys
    rw [splitSepL_append_sep,
      splitSepL_no_sep c (fun x hx => (cleanComp_chars (hclean c (by simp)) hx).1),
      splitSepL_intercalate (y :: ys) (by simp) (fun x hx => hclean x (List.mem_cons_of_mem c hx))]
    rfl

lemma endsWithSepL_sep_intercalate (comps : List (List Char)) (hc : comps ≠ [])
    (hclean : ∀ c ∈ comps, cleanCompB c = true) :
    endsWithSepL ('\\' :: intercalateSepL comps) = false := by
  obtain ⟨z, zs, hz, hns⟩ := intercalateSepL_last comps hc hclean
  unfold endsWithSepL
  rw [List.reverse_cons, hz, List.cons_append]
  show isSepChar z = false
  cases hb : isSepChar z with
  | false => rfl
  | true => exact absurd hb hns

lemma joinFinishL_sep (rd : List Char) (c : Char) (rp : List Char) (hc : isSepChar c = true) :
    joinFinishL rd (c :: rp) = rd ++ c :: rp := by
  unfold joinFinishL
  cases h : rd.reverse with
  | nil => rfl
  | cons a as => simp [hc]

lemma ntNormpathL_drive_root (d : List Char) (y : Char) (ys : List Char)
    (hd : driveOkB d = true)
    (hslash : ∀ x ∈ y :: ys, ¬(x == '/'))
    (hyc : ¬(y == ':')) (hysep : isSepChar y = false) :
    ntNormpathL (d ++ '\\' :: y :: ys)
      = d ++ '\\' :: intercalateSepL (normFold true [] (splitSepL (y :: ys))) := by
  have hdns : ∀ x ∈ d, ¬(x == '/') := by
    rcases driveOk_shape d hd with rfl | ⟨a, rfl, _, ha, _⟩
    · simp
    · intro x hx
      rcases List.mem_cons.mp hx with rfl | hx2
      · exact ha
      · rcases List.mem_cons.mp hx2 with rfl | hx3
        · decide
        · simp at hx3
  have htb : toBack (d ++ '\\' :: y :: ys) = d ++ '\\' :: y :: ys := by
    apply toBack_eq_self
    intro x hx
    rcases List.mem_append.mp hx with h1 | h2
    · exact hdns x h1
    · rcases List.mem_cons.mp h2 with rfl | h3
      · decide
      · exact hslash x h3
  have hsd : splitDriveL (d ++ '\\' :: y :: ys) = (d, '\\' :: y :: ys) :=
    splitDriveL_drive_root d (y :: ys) hd
      (by intro x xs hxx; cases hxx; exact hyc)
  have hy2 : (y == '\\') = false := by
    cases h : (y == '\\') with
    | false => rfl
    | true =>
      exfalso
      simp [isSepChar, h] at hysep
  have hpre : (d ++ ['\\']).isEmpty = false := by
    cases d <;> rfl
  simp only [ntNormpathL, htb, hsd, beq_self_eq_true, if_true, List.dropWhile_cons, hy2,
    Bool.false_eq_true, if_false, hpre, Bool.false_and, List.append_assoc, List.singleton_append]

lemma ntIsAbs_drive_root (d : List Char) (Y : List Char) (hd : driveOkB d = true)
    (hY : ∀ x xs, Y = x :: xs → ¬(x == ':')) :
    isAbsL (d ++ '\\' :: Y) = true := by
  unfold isAbsL
  rw [splitDriveL_drive_root d Y hd hY]
  rfl

lemma ntAbspath_join_empty_of_normal (w : World) (p : String) (h : NormalAbs p) :
    ntAbspath w (ntJoin p sEmpty) = p := by
  obtain ⟨d, comps, hd, hc, hclean, hp⟩ := h
  obtain ⟨c0, cs, rfl⟩ := List.exists_cons_of_ne_nil hc
  have hclean0 := hclean c0 (List.mem_cons_self c0 cs)
  obtain ⟨y, ys, hX, hymem⟩ := intercalateSepL_head cs hclean0
  have hych := cleanComp_chars hclean0 hymem
  have hyc : ¬(y == ':') := hych.2.2
  have hysep : isSepChar y = false := by
    cases hb : isSepChar y with
    | false => rfl
    | true =>
      exfalso
      simp [isSepChar, hych.1, hych.2.1] at hb
  have hheadfun : ∀ x xs, intercalateSepL (c0 :: cs) = x :: xs → ¬(x == ':') := by
    intro x xs hxx
    rw [hX] at hxx
    cases hxx
    exact hyc
  have hsd : splitDriveL (d ++ '\\' :: intercalateSepL (c0 :: cs))
      = (d, '\\' :: intercalateSepL (c0 :: cs)) :=
    splitDriveL_drive_root d _ hd hheadfun
  have hnsep : endsWithSepL ('\\' :: intercalateSepL (c0 :: cs)) = false :=
    endsWithSepL_sep_intercalate (c0 :: cs) (by simp) hclean
  have hjoin : join2L (d ++ '\\' :: intercalateSepL (c0 :: cs)) []
      = d ++ '\\' :: (intercalateSepL (c0 :: cs) ++ ['\\']) := by
    show join2RelL (splitDriveL (d ++ '\\' :: intercalateSepL (c0 :: cs))) ([], []) = _
    rw [hsd]
    unfold join2RelL
    simp only [List.isEmpty_nil, Bool.not_true, Bool.false_and, Bool.false_eq_true, if_false,
      List.isEmpty_cons, Bool.not_false, Bool.true_and, hnsep, if_true, List.append_nil]
    rw [List.cons_append]
    exact joinFinishL_sep d '\\' _ (by decide)
  have hdata : (ntJoin p sEmpty).data
      = d ++ '\\' :: (intercalateSepL (c0 :: cs) ++ ['\\']) := by
    show join2L p.data [] = _
    rw [hp]
    exact hjoin
  have hY' : intercalateSepL (c0 :: cs) ++ ['\\'] = y :: (ys ++ ['\\']) := by
    rw [hX]
    rfl
  have habs : ntIsAbs (ntJoin p sEmpty) = true := by
    unfold ntIsAbs
    rw [hdata]
    exact ntIsAbs_drive_root d _ hd
      (by
        intro x xs hxx
        rw [hY'] at hxx
        cases hxx
        exact hyc)
  have hslashX : ∀ x ∈ intercalateSepL (c0 :: cs), ¬(x == '/') := by
    intro x hx
    rcases mem_intercalateSepL hx with rfl | ⟨c, hcmem, hxc⟩
    · decide
    · exact (cleanComp_chars (hclean c hcmem) hxc).2.1
  have hslashY : ∀ x ∈ y :: (ys ++ ['\\']), ¬(x == '/') := by
    intro x hx
    have hx2 : x ∈ intercalateSepL (c0 :: cs) ++ ['\\'] := by
      rw [hY']
      exact hx
    rcases List.mem_append.mp hx2 with h1 | h2
    · exact hslashX x h1
    · have hxe : x = '\\' := by simpa using h2
      subst hxe
      decide
  unfold ntAbspath
  rw [if_pos habs]
  unfold ntNormpath
  rw [hdata, hY', ntNormpathL_drive_root d y (ys ++ ['\\']) hd hslashY hyc hysep, ← hY']
  have hsplit : splitSepL (intercalateSepL (c0 :: cs) ++ ['\\']) = (c0 :: cs) ++ [[]] := by
    have he : intercalateSepL (c0 :: cs) ++ ['\\'] = intercalateSepL (c0 :: cs) ++ '\\' :: [] := rfl
    rw [he, splitSepL_append_sep, splitSepL_intercalate (c0 :: cs) (by simp) hclean]
    rfl
  rw [hsplit, normFold_clean_trailing true (c0 :: cs) hclean, ← hp]

lemma ntAbspath_join_pexe_of_normal (w : World) (p : String) (h : NormalAbs p) :
    ntAbspath w (ntJoin p sPythonExe) = p ++ ("\\python.exe") := by
  obtain ⟨d, comps, hd, hc, hclean, hp⟩ := h
  obtain ⟨c0, cs, rfl⟩ := List.exists_cons_of_ne_nil hc
  have hclean0 := hclean c0 (List.mem_cons_self c0 cs)
  obtain ⟨y, ys, hX, hymem⟩ := intercalateSepL_head cs hclean0
  have hych := cleanComp_chars hclean0 hymem
  have hyc : ¬(y == ':') := hych.2.2
  have hysep : isSepChar y = false := by
    cases hb : isSepChar y with
    | false => rfl
    | true =>
      exfalso
      simp [isSepChar, hych.1, hych.2.1] at hb
  have hheadfun : ∀ x xs, intercalateSepL (c0 :: cs) = x :: xs → ¬(x == ':') := by
    intro x xs hxx
    rw [hX] at hxx
    cases hxx
    exact hyc
  have hsd : splitDriveL (d ++ '\\' :: intercalateSepL (c0 :: cs))
      = (d, '\\' :: intercalateSepL (c0 :: cs)) :=
    splitDriveL_drive_root d _ hd hheadfun
  have hnsep : endsWithSepL ('\\' :: intercalateSepL (c0 :: cs)) = false :=
    endsWithSepL_sep_intercalate (c0 :: cs) (by simp) hclean
  have hjoin : join2L (d ++ '\\' :: intercalateSepL (c0 :: cs)) sPythonExe.data
      = d ++ '\\' :: (intercalateSepL (c0 :: cs) ++ '\\' :: sPythonExe.data) := by
    show join2RelL (splitDriveL (d ++ '\\' :: intercalateSepL (c0 :: cs)))
        ([], sPythonExe.data) = _
    rw [hsd]
    unfold join2RelL
    simp only [List.isEmpty_nil, Bool.not_true, Bool.false_and, Bool.false_eq_true, if_false,
      List.isEmpty_cons, Bool.not_false, Bool.true_and, hnsep, if_true]
    rw [List.cons_append]
    exact joinFinishL_sep d '\\' _ (by decide)
  have hdata : (ntJoin p sPythonExe).data
      = d ++ '\\' :: (intercalateSepL (c0 :: cs) ++ '\\' :: sPythonExe.data) := by
    show join2L p.data sPythonExe.data = _
    rw [hp]
    exact hjoin
  have hY' : intercalateSepL (c0 :: cs) ++ '\\' :: sPythonExe.data
      = y :: (ys ++ '\\' :: sPythonExe.data) := by
    rw [hX]
    rfl
  have habs : ntIsAbs (ntJoin p sPythonExe) = true := by
    unfold ntIsAbs
    rw [hdata]
    exact ntIsAbs_drive_root d _ hd
      (by
        intro x xs hxx
        rw [hY'] at hxx
        cases hxx
        exact hyc)
  have hslashX : ∀ x ∈ intercalateSepL (c0 :: cs), ¬(x == '/') := by
    intro x hx
    rcases mem_intercalateSepL hx with rfl | ⟨c, hcmem, hxc⟩
    · decide
    · exact (cleanComp_chars (hclean c hcmem) hxc).2.1
  have hslashY : ∀ x ∈ y :: (ys ++ '\\' :: sPythonExe.data), ¬(x == '/') := by
    intro x hx
    have hx2 : x ∈ intercalateSepL (c0 :: cs) ++ '\\' :: sPythonExe.data := by
      rw [hY']
      exact hx
    rcases List.mem_append.mp hx2 with h1 | h2
    · exact hslashX x h1
    · rcases List.mem_cons.mp h2 with rfl | h3
      · decide
      · have hall : sPythonExe.data.all (fun c => !(c == '/')) = true := by decide
        have hx3 := List.all_eq_true.mp hall x h3
        simpa using hx3
  unfold ntAbspath
  rw [if_pos habs]
  unfold ntNormpath
  rw [hdata, hY', ntNormpathL_drive_root d y (ys ++ '\\' :: sPythonExe.data) hd hslashY hyc hysep,
    ← hY']
  have hsplit : splitSepL (intercalateSepL (c0 :: cs) ++ '\\' :: sPythonExe.data)
      = (c0 :: cs) ++ [sPythonExe.data] := by
    rw [splitSepL_append_sep, splitSepL_intercalate (c0 :: cs) (by simp) hclean,
      splitSepL_no_sep sPythonExe.data (by decide)]
  have hcleanAll : ∀ c ∈ (c0 :: cs) ++ [sPythonExe.data], cleanCompB c = true := by
    intro c hcm
    rcases List.mem_append.mp hcm with h1 | h2
    · exact hclean c h1
    · have hce : c = sPythonExe.data := by simpa using h2
      subst hce
      decide
  rw [hsplit, normFold_clean true _ hcleanAll,
    intercalateSepL_append_single (c0 :: cs) (by simp) sPythonExe.data]
  show String.mk (d ++ '\\' :: (intercalateSepL (c0 :: cs) ++ '\\' :: sPythonExe.data))
      = String.mk (p.data ++ '\\' :: sPythonExe.data)
  rw [hp]
  simp [List.append_assoc]

/-! Lemmas about the embedded operations. -/

lemma resolveScan_nil (w : World) (rk : String) (self : PTVSInterpreter) :
    resolveScan w rk self [] = .ok self := rfl

lemma resolveScan_cons (w : World) (rk : String) (self : PTVSInterpreter)
    (n : String) (rest : List String) :
    resolveScan w rk self (n :: rest)
      = match fromRegistryKey w (rk ++ ("\\") ++ n) with
        | some e =>
          if pyLower e.InterpreterAbsPath == pyLower self.InterpreterAbsPath then
            match uuidParse e.GUID with
            | some g => .ok { self with GUID := g, BaseInterpreter := g }
            | none => .error .malformedIdentity
          else resolveScan w rk self rest
        | none => resolveScan w rk self rest := rfl

lemma resolveScan_no_match (w : World) (rk : String) (self : PTVSInterpreter) :
    ∀ names : List String, (∀ n ∈ names, noMatchB w rk self n = true) →
      resolveScan w rk self names = .ok self
  | [], _ => rfl
  | n :: rest, h => by
    have hn := h n (List.mem_cons_self n rest)
    rw [resolveScan_cons]
    cases he : fromRegistryKey w (rk ++ ("\\") ++ n) with
    | none =>
      exact resolveScan_no_match w rk self rest (fun m hm => h m (List.mem_cons_of_mem n hm))
    | some e =>
      unfold noMatchB at hn
      rw [he] at hn
      have hn2 : (!(pyLower e.InterpreterAbsPath == pyLower self.InterpreterAbsPath)) = true := hn
      have hb : (pyLower e.InterpreterAbsPath == pyLower self.InterpreterAbsPath) = false := by
        simpa using hn2
      simp only [hb, Bool.false_eq_true, if_false]
      exact resolveScan_no_match w rk self rest (fun m hm => h m (List.mem_cons_of_mem n hm))

lemma resolveScan_first_match (w : World) (rk : String) (self e : PTVSInterpreter)
    (g : String) :
    ∀ (pre : List String) (n : String) (post : List String),
      (∀ m ∈ pre, noMatchB w rk self m = true) →
      fromRegistryKey w (rk ++ ("\\") ++ n) = some e →
      (pyLower e.InterpreterAbsPath == pyLower self.InterpreterAbsPath) = true →
      uuidParse e.GUID = some g →
      resolveScan w rk self (pre ++ n :: post)
        = .ok { self with GUID := g, BaseInterpreter := g }
  | [], n, post, _, he, hm, hu => by
    rw [List.nil_append, resolveScan_cons, he]
    simp only [hm, if_true, hu]
  | m :: pre, n, post, hpre, he, hm, hu => by
    have hmn := hpre m (List.mem_cons_self m pre)
    rw [List.cons_append, resolveScan_cons]
    cases hem : fromRegistryKey w (rk ++ ("\\") ++ m) with
    | none =>
      exact resolveScan_first_match w rk self e g pre n post
        (fun x hx => hpre x (List.mem_cons_of_mem m hx)) he hm hu
    | some e2 =>
      unfold noMatchB at hmn
      rw [hem] at hmn
      have hmn2 : (!(pyLower e2.InterpreterAbsPath == pyLower self.InterpreterAbsPath)) = true := hmn
      have hb : (pyLower e2.InterpreterAbsPath == pyLower self.InterpreterAbsPath) = false := by
        simpa using hmn2
      simp only [hb, Bool.false_eq_true, if_false]
      exact resolveScan_first_match w rk self e g pre n post
        (fun x hx => hpre x (List.mem_cons_of_mem m hx)) he hm hu

lemma resolveScan_first_bad (w : World) (rk : String) (self e : PTVSInterpreter) :
    ∀ (pre : List String) (n : String) (post : List String),
      (∀ m ∈ pre, noMatchB w rk self m = true) →
      fromRegistryKey w (rk ++ ("\\") ++ n) = some e →
      (pyLower e.InterpreterAbsPath == pyLower self.InterpreterAbsPath) = true →
      uuidParse e.GUID = none →
      resolveScan w rk self (pre ++ n :: post) = .error .malformedIdentity
  | [], n, post, _, he, hm, hu => by
    rw [List.nil_append, resolveScan_cons, he]
    simp only [hm, if_true, hu]
  | m :: pre, n, post, hpre, he, hm, hu => by
    have hmn := hpre m (List.mem_cons_self m pre)
    rw [List.cons_append, resolveScan_cons]
    cases hem : fromRegistryKey w (rk ++ ("\\") ++ m) with
    | none =>
      exact resolveScan_first_bad w rk self e pre n post
        (fun x hx => hpre x (List.mem_cons_of_mem m hx)) he hm hu
    | some e2 =>
      unfold noMatchB at hmn
      rw [hem] at hmn
      have hmn2 : (!(pyLower e2.InterpreterAbsPath == pyLower self.InterpreterAbsPath)) = true := hmn
      have hb : (pyLower e2.InterpreterAbsPath == pyLower self.InterpreterAbsPath) = false := by
        simpa using hmn2
      simp only [hb, Bool.false_eq_true, if_false]
      exact resolveScan_first_bad w rk self e pre n post
        (fun x hx => hpre x (List.mem_cons_of_mem m hx)) he hm hu

lemma resolveScan_cases (w : World) (rk : String) (self : PTVSInterpreter) :
    ∀ names : List String, resolveScan w rk self names = .ok self
      ∨ (∃ g, resolveScan w rk self names = .ok { self with GUID := g, BaseInterpreter := g })
      ∨ resolveScan w rk self names = .error .malformedIdentity
  | [] => Or.inl rfl
  | n :: rest => by
    rw [resolveScan_cons]
    cases he : fromRegistryKey w (rk ++ ("\\") ++ n) with
    | none => exact resolveScan_cases w rk self rest
    | some e =>
      cases hb : (pyLower e.InterpreterAbsPath == pyLower self.InterpreterAbsPath) with
      | true =>
        simp only [hb, if_true]
        cases hu : uuidParse e.GUID with
        | some g =>
          simp only [hu]
          exact Or.inr (Or.inl ⟨g, rfl⟩)
        | none =>
          simp only [hu]
          exact Or.inr (Or.inr trivial)
      | false =>
        simp only [hb, Bool.false_eq_true, if_false]
        exact resolveScan_cases w rk self rest

lemma resolve_outcomes (w : World) (self : PTVSInterpreter) (v : String)
    (hv : self.VSVersion = some v) (hvf : (v == sEmpty) = false)
    (hroot : w.regKeyExists (ntDirname (regkeyName v)) = true) :
    resolve w self = .ok self
      ∨ (∃ g, resolve w self = .ok { self with GUID := g, BaseInterpreter := g })
      ∨ resolve w self = .error .malformedIdentity := by
  have hshape : resolve w self
      = (match w.regEnum (regkeyName v) with
         | none => .ok self
         | some names => resolveScan w (regkeyName v) self names) := by
    unfold resolve
    rw [hv]
    simp only [hvf, Bool.false_eq_true, if_false, hroot, if_true]
  cases henum : w.regEnum (regkeyName v) with
  | none =>
    left
    rw [hshape, henum]
  | some names =>
    rw [hshape, henum]
    exact resolveScan_cases w (regkeyName v) self names

lemma register_ok_success (w : World) (self : PTVSInterpreter) (v : String)
    (hv : self.VSVersion = some v) (hvf : (v == sEmpty) = false)
    (hk : w.regKeyExists (ntDirname (regkeyName v)) = true)
    (hcf : w.regCreateFails (registerEntryKey v self) = false)
    (hwf : ((registerWrites self).any fun p =>
      w.regWriteFails (registerEntryKey v self) p.1) = false) :
    register w self = .ok (.success (registerEntryKey v self) (registerWrites self)) := by
  unfold register
  rw [hv]
  simp only [hvf, Bool.false_eq_true, if_false, hk, if_true, hcf, hwf]

lemma register_ok_failure (w : World) (self : PTVSInterpreter) (v : String)
    (hv : self.VSVersion = some v) (hvf : (v == sEmpty) = false)
    (hk : w.regKeyExists (ntDirname (regkeyName v)) = true)
    (hfail : w.regCreateFails (registerEntryKey v self) = true ∨
      ((registerWrites self).any fun p =>
        w.regWriteFails (registerEntryKey v self) p.1) = true) :
    register w self = .ok .failure := by
  unfold register
  rw [hv]
  rcases hfail with hcf | hwf
  · simp only [hvf, Bool.false_eq_true, if_false, hk, if_true, hcf]
  · cases hcf : w.regCreateFails (registerEntryKey v self) with
    | true => simp only [hvf, Bool.false_eq_true, if_false, hk, if_true, hcf]
    | false => simp only [hvf, Bool.false_eq_true, if_false, hk, if_true, hcf, hwf]

lemma applyProbes_fixed (w : World) (py : String) (a : Kwargs) :
    (applyProbes w py a).Id = a.Id ∧
    (applyProbes w py a).BaseInterpreter = a.BaseInterpreter ∧
    (applyProbes w py a).Path = a.Path ∧
    (applyProbes w py a).Description = a.Description ∧
    (applyProbes w py a).InterpreterPath = a.InterpreterPath ∧
    (applyProbes w py a).InterpreterAbsPath = a.InterpreterAbsPath ∧
    (applyProbes w py a).WindowsInterpreterPath = a.WindowsInterpreterPath ∧
    (applyProbes w py a).WindowsInterpreterAbsPath = a.WindowsInterpreterAbsPath ∧
    (applyProbes w py a).PathEnvironmentVariable = a.PathEnvironmentVariable ∧
    (applyProbes w py a).VSVersion = a.VSVersion := by
  unfold applyProbes
  rcases pythonVersion w py with _ | v <;> rcases pythonArchitecture w py with _ | ar
  · simp
  · by_cases har : ar = sEmpty <;> simp [har]
  · by_cases hv : v = sEmpty <;> simp [hv]
  · by_cases hv : v = sEmpty <;> by_cases har : ar = sEmpty <;> simp [hv, har]

lemma instArgsW_proj (w : World) (k : Kwargs) (root : String) :
    (instArgsW w k root).Path = some root ∧
    (instArgsW w k root).InterpreterPath = some sPythonExe ∧
    (instArgsW w k root).Description = some ((k.Description).getD (ntBasename root)) ∧
    (instArgsW w k root).InterpreterAbsPath = k.InterpreterAbsPath ∧
    (instArgsW w k root).VSVersion = k.VSVersion := by
  unfold instArgsW instArgs
  split_ifs <;> simp

lemma venvArgsW_proj (w : World) (k : Kwargs) (root : String) (base : PTVSInterpreter) :
    (venvArgsW w k root base).Path = some root ∧
    (venvArgsW w k root base).BaseInterpreter = some base.GUID ∧
    (venvArgsW w k root base).InterpreterPath = some (ntJoin sScripts sPythonExe) ∧
    (venvArgsW w k root base).Description
      = some ((k.Description).getD
          (ntBasename root ++ (" (") ++ base.Description ++ (")"))) ∧
    (venvArgsW w k root base).VSVersion = k.VSVersion := by
  unfold venvArgsW venvArgs
  split_ifs <;> simp

lemma venvBase_unbound (w : World) (root : String)
    (ho : w.pathExists (venvOrigMarker w root) = false)
    (hc : w.pathExists (venvCfgPath w root) = false) :
    venvBase w root = .unbound := by
  unfold venvBase
  simp [ho, hc]

/-! The claim theorems. -/

/-- C8: for every interpreter path the architecture and version probes never
raise to the caller: both are total functions into an optional result; when
the subprocess call raises (launch, communication or decode failure, all
caught by the same except block) the result is the absent value, and when the
child completes the result is its standard output with trailing whitespace
stripped. -/
theorem probes_never_raise (w : World) (interp : String) :
    (w.popen interp ProbeKind.arch = PopenResult.raised →
      pythonArchitecture w interp = none) ∧
    (∀ out, w.popen interp ProbeKind.arch = PopenResult.completed out →
      pythonArchitecture w interp = some (pyRstrip out)) ∧
    (w.popen interp ProbeKind.version = PopenResult.raised →
      pythonVersion w interp = none) ∧
    (∀ out, w.popen interp ProbeKind.version = PopenResult.completed out →
      pythonVersion w interp = some (pyRstrip out)) := by
  refine ⟨?_, ?_, ?_, ?_⟩
  · intro h
    unfold pythonArchitecture
    rw [h]
  · intro out h
    unfold pythonArchitecture
    rw [h]
  · intro h
    unfold pythonVersion
    rw [h]
  · intro out h
    unfold pythonVersion
    rw [h]

/-- Witness for C8 at a concrete machine: the architecture probe completes
with trailing whitespace which is stripped, the version probe raises and
degrades to the absent value. -/
theorem probes_never_raise_witness :
    pythonArchitecture wProbe ("C:\\Python39\\python.exe") = some ("x64")
      ∧ pythonVersion wProbe ("C:\\Python39\\python.exe") = none := by
  constructor
  · have h := (probes_never_raise wProbe ("C:\\Python39\\python.exe")).2.1 ("x64\n") rfl
    exact h.trans rfl
  · exact (probes_never_raise wProbe ("C:\\Python39\\python.exe")).2.2.1 rfl

/-- C3: reconciliation and registration check the same two preconditions and
fail with the same two error kinds: a falsy CatalogVersion raises the
configuration error, and a set CatalogVersion whose catalog root is missing
from the persistent store raises the host tool not present error. -/
theorem resolve_register_precondition_errors (w : World) (self : PTVSInterpreter) :
    (vsVersionFalsy self = true →
      resolve w self = .error .configError ∧ register w self = .error .configError) ∧
    (∀ v, self.VSVersion = some v → v ≠ sEmpty →
      w.regKeyExists (ntDirname (regkeyName v)) = false →
      resolve w self = .error .notPresent ∧ register w self = .error .notPresent) := by
  constructor
  · intro hf
    unfold vsVersionFalsy at hf
    cases hv : self.VSVersion with
    | none =>
      constructor
      · unfold resolve
        rw [hv]
      · unfold register
        rw [hv]
    | some v =>
      rw [hv] at hf
      have hf2 : (v == sEmpty) = true := hf
      constructor
      · unfold resolve
        rw [hv]
        simp only [hf2, if_true]
      · unfold register
        rw [hv]
        simp only [hf2, if_true]
  · intro v hv hne hk
    have hvf : (v == sEmpty) = false := beq_eq_false_iff_ne.mpr hne
    constructor
    · unfold resolve
      rw [hv]
      simp only [hvf, Bool.false_eq_true, if_false, hk]
    · unfold register
      rw [hv]
      simp only [hvf, Bool.false_eq_true, if_false, hk]

/-- Witness for C3: a descriptor with no catalog version fails both calls
with the configuration error, and one naming version 14.0, absent from the
machine, fails both calls with the not present error. -/
theorem resolve_register_precondition_errors_witness :
    resolve w39 { iPy39 with VSVersion := none } = .error .configError
      ∧ register w39 { iPy39 with VSVersion := none } = .error .configError
      ∧ resolve w39 { iPy39 with VSVersion := some ("14.0") } = .error .notPresent
      ∧ register w39 { iPy39 with VSVersion := some ("14.0") } = .error .notPresent := by
  refine ⟨?_, ?_, ?_, ?_⟩
  · exact ((resolve_register_precondition_errors w39 { iPy39 with VSVersion := none }).1 rfl).1
  · exact ((resolve_register_precondition_errors w39 { iPy39 with VSVersion := none }).1 rfl).2
  · exact ((resolve_register_precondition_errors w39
      { iPy39 with VSVersion := some ("14.0") }).2 ("14.0") rfl (by decide) rfl).1
  · exact ((resolve_register_precondition_errors w39
      { iPy39 with VSVersion := some ("14.0") }).2 ("14.0") rfl (by decide) rfl).2

/-- C9: when the environment holds Scripts python.exe, the legacy marker is
absent, and pyvenv.cfg exists but carries no home key, the basedir local is
never assigned and from_virtual_environment raises the unbound local name
error instead of producing no descriptor. -/
theorem venv_unbound_basedir (w : World) (fb fe : String) (k : Kwargs) (directory : String)
    (hp : w.pathExists (venvPython w (ntAbspath w directory)) = true)
    (ho : w.pathExists (venvOrigMarker w (ntAbspath w directory)) = false)
    (hcf : w.pathExists (venvCfgPath w (ntAbspath w directory)) = true)
    (hh : cfgHome (w.fileLines (venvCfgPath w (ntAbspath w directory))) = none) :
    fromVirtualEnvironment w fb fe k directory = .error .nameError := by
  have hvb : venvBase w (ntAbspath w directory) = .unbound := by
    unfold venvBase
    simp [ho, hcf, hh]
  unfold fromVirtualEnvironment
  simp [hp, ho, hcf, hvb]

/-- Witness for C9 at a machine whose pyvenv.cfg holds only a version line. -/
theorem venv_unbound_basedir_witness :
    fromVirtualEnvironment wVenvNoHome ("b1") ("e1") kwargs15 ("C:\\envs\\my")
      = .error .nameError :=
  venv_unbound_basedir wVenvNoHome ("b1") ("e1") kwargs15 ("C:\\envs\\my") rfl rfl rfl rfl

/-- C6: with the console interpreter present, a virtual environment with
neither marker file produces no descriptor, and when both marker files exist
and pyvenv.cfg carries a home value, the base directory handed to the base
resolution (through venvBase, which from_virtual_environment feeds into
from_python_installation) is that home value: the modern file wins over the
legacy first line. -/
theorem venv_marker_precedence (w : World) (fb fe : String) (k : Kwargs) (directory : String)
    (hp : w.pathExists (venvPython w (ntAbspath w directory)) = true) :
    (w.pathExists (venvOrigMarker w (ntAbspath w directory)) = false →
      w.pathExists (venvCfgPath w (ntAbspath w directory)) = false →
      fromVirtualEnvironment w fb fe k directory = .ok none) ∧
    (∀ v, w.pathExists (venvOrigMarker w (ntAbspath w directory)) = true →
      w.pathExists (venvCfgPath w (ntAbspath w directory)) = true →
      cfgHome (w.fileLines (venvCfgPath w (ntAbspath w directory))) = some v →
      venvBase w (ntAbspath w directory) = BaseAssign.dir v) := by
  constructor
  · intro ho hcf
    unfold fromVirtualEnvironment
    simp [hp, ho, hcf]
  · intro v ho hcf hh
    unfold venvBase
    simp [ho, hcf, hh]

/-- Witness for C6: the bare environment yields no descriptor, and with both
markers present naming different bases the pyvenv.cfg home value is the one
adopted. -/
theorem venv_marker_precedence_witness :
    fromVirtualEnvironment wVenvBare ("b1") ("e1") kwargs15 ("C:\\envs\\my") = .ok none
      ∧ venvBase wVenv ("C:\\envs\\my") = BaseAssign.dir ("C:\\Python39") := by
  constructor
  · exact (venv_marker_precedence wVenvBare ("b1") ("e1") kwargs15 ("C:\\envs\\my") rfl).1
      rfl rfl
  · exact (venv_marker_precedence wVenv ("b1") ("e1") kwargs15 ("C:\\envs\\my") rfl).2
      ("C:\\Python39") rfl rfl rfl

/-- C4 counterexample: a catalog whose single entry matches the descriptor
path case insensitively but carries the malformed identity abc-2; the claim
says the identity is adopted and errors during enumeration are swallowed, but
the adoption step constructs a uuid from the entry identity, and the
ValueError it raises on abc-2 is not a WindowsError, so resolve raises
instead of returning. -/
theorem resolve_reconciliation_counterexample :
    resolve wMatchBad iPy39 = .error .malformedIdentity := by rfl

/-- C4 amended: with the preconditions met, reconciliation leaves the
descriptor unchanged when enumeration raises a WindowsError (that error is
swallowed) or when no enumerated entry matches; on the first entry whose
loaded console interpreter path equals the descriptor path case
insensitively it constructs a uuid from the entry identity and, when that
parse succeeds, adopts the canonical form as both identity fields and stops;
when the matching entry identity is malformed, the ValueError from the uuid
constructor propagates, since only WindowsError is caught. -/
theorem resolve_reconciliation (w : World) (self : PTVSInterpreter) (v : String)
    (hv : self.VSVersion = some v) (hne : v ≠ sEmpty)
    (hroot : w.regKeyExists (ntDirname (regkeyName v)) = true) :
    (w.regEnum (regkeyName v) = none → resolve w self = .ok self) ∧
    (∀ names, w.regEnum (regkeyName v) = some names →
      (∀ n ∈ names, noMatchB w (regkeyName v) self n = true) →
      resolve w self = .ok self) ∧
    (∀ pre n post e g, w.regEnum (regkeyName v) = some (pre ++ n :: post) →
      (∀ m ∈ pre, noMatchB w (regkeyName v) self m = true) →
      fromRegistryKey w (regkeyName v ++ ("\\") ++ n) = some e →
      pyLower e.InterpreterAbsPath = pyLower self.InterpreterAbsPath →
      uuidParse e.GUID = some g →
      resolve w self = .ok { self with GUID := g, BaseInterpreter := g }) ∧
    (∀ pre n post e, w.regEnum (regkeyName v) = some (pre ++ n :: post) →
      (∀ m ∈ pre, noMatchB w (regkeyName v) self m = true) →
      fromRegistryKey w (regkeyName v ++ ("\\") ++ n) = some e →
      pyLower e.InterpreterAbsPath = pyLower self.InterpreterAbsPath →
      uuidParse e.GUID = none →
      resolve w self = .error .malformedIdentity) := by
  have hvf : (v == sEmpty) = false := beq_eq_false_iff_ne.mpr hne
  have hshape : resolve w self
      = (match w.regEnum (regkeyName v) with
         | none => .ok self
         | some names => resolveScan w (regkeyName v) self names) := by
    unfold resolve
    rw [hv]
    simp only [hvf, Bool.false_eq_true, if_false, hroot, if_true]
  refine ⟨?_, ?_, ?_, ?_⟩
  · intro he
    rw [hshape, he]
  · intro names he hall
    rw [hshape, he]
    exact resolveScan_no_match w (regkeyName v) self names hall
  · intro pre n post e g he hpre hload hm hu
    rw [hshape, he]
    exact resolveScan_first_match w (regkeyName v) self e g pre n post hpre hload
      (beq_iff_eq.mpr hm) hu
  · intro pre n post e he hpre hload hm hu
    rw [hshape, he]
    exact resolveScan_first_bad w (regkeyName v) self e pre n post hpre hload
      (beq_iff_eq.mpr hm) hu

set_option maxRecDepth 40000 in
/-- Witness for C4: against the two entry catalog the unreadable first entry
is skipped and the second, matching in different case under a well formed
braced identity, donates the canonical identity to both fields; against the
empty catalog the descriptor is unchanged. -/
theorem resolve_reconciliation_witness :
    resolve wMatch iPy39
      = .ok { iPy39 with GUID := uuidG, BaseInterpreter := uuidG }
      ∧ resolve w39 iPy39 = .ok iPy39 := by
  constructor
  · exact (resolve_reconciliation wMatch iPy39 ("15.0") rfl (by decide) rfl).2.2.1
      [("\x7babc-1\x7d")] ("\x7b12345678-1234-5678-1234-567812345678\x7d") [] eUuid uuidG rfl
      (by
        intro m hm
        have hme : m = ("\x7babc-1\x7d") := by simpa using hm
        subst hme
        rfl)
      rfl rfl rfl
  · exact (resolve_reconciliation w39 iPy39 ("15.0") rfl (by decide) rfl).2.1 []
      rfl (by intro n hn; simp at hn)

/-- C5: with the preconditions met, register computes the entry key from the
catalog version root and the lowercased identity, never raises from the write
phase, returns the successful outcome carrying exactly the six descriptor
fields as flat string values when creation and every write succeed, and
returns the failure outcome when the creation or any write raises. -/
theorem register_writes_spec (w : World) (self : PTVSInterpreter) (v : String)
    (hv : self.VSVersion = some v) (hne : v ≠ sEmpty)
    (hroot : w.regKeyExists (ntDirname (regkeyName v)) = true) :
    (∃ r, register w self = .ok r) ∧
    (w.regCreateFails (registerEntryKey v self) = false →
      ((registerWrites self).any fun p =>
        w.regWriteFails (registerEntryKey v self) p.1) = false →
      register w self
        = .ok (.success (regkeyName v ++ ("\\\x7b") ++ pyLower self.GUID ++ ("\x7d"))
            [(sArchitecture, self.Architecture),
             (sDescription, self.Description),
             (sInterpreterPath, self.InterpreterAbsPath),
             (sVersion, self.Version),
             (sWindowsInterpreterPath, self.WindowsInterpreterAbsPath),
             (sPathEnvVar, self.PathEnvironmentVariable)])) ∧
    ((w.regCreateFails (registerEntryKey v self) = true ∨
      ((registerWrites self).any fun p =>
        w.regWriteFails (registerEntryKey v self) p.1) = true) →
      register w self = .ok .failure) := by
  have hvf : (v == sEmpty) = false := beq_eq_false_iff_ne.mpr hne
  refine ⟨?_, ?_, ?_⟩
  · cases hcf : w.regCreateFails (registerEntryKey v self) with
    | true => exact ⟨.failure, register_ok_failure w self v hv hvf hroot (Or.inl hcf)⟩
    | false =>
      cases hwf : ((registerWrites self).any fun p =>
          w.regWriteFails (registerEntryKey v self) p.1) with
      | true => exact ⟨.failure, register_ok_failure w self v hv hvf hroot (Or.inr hwf)⟩
      | false =>
        exact ⟨.success (registerEntryKey v self) (registerWrites self),
          register_ok_success w self v hv hvf hroot hcf hwf⟩
  · intro hcf hwf
    exact register_ok_success w self v hv hvf hroot hcf hwf
  · intro hfail
    exact register_ok_failure w self v hv hvf hroot hfail

/-- Witness for C5: on the reliable machine the descriptor is written as the
six flat values under its braced lowercase identity, and on the machine whose
Version write fails the call reports the boolean failure without raising. -/
theorem register_writes_spec_witness :
    register w39 iPy39
      = .ok (.success
          ("Software\\Microsoft\\VisualStudio\\15.0\\PythonTools\\Interpreters\\\x7bg1\x7d")
          (registerWrites iPy39))
      ∧ register wWriteFail iPy39 = .ok .failure := by
  constructor
  · exact (register_writes_spec w39 iPy39 ("15.0") rfl (by decide) rfl).2.1 rfl rfl
  · exact (register_writes_spec wWriteFail iPy39 ("15.0") rfl (by decide) rfl).2.2
      (Or.inr rfl)

/-- C10: a descriptor built without a windowed interpreter path gets the
empty string for the relative field, and the absolute field is computed by
joining the installation root with that empty string, which normalisation
collapses back to the absolute root itself; registration then writes that
directory path as the windowed interpreter value of the entry. -/
theorem windowed_interpreter_default (w : World) (fresh : String) (d : Kwargs) (root : String)
    (h1 : d.WindowsInterpreterPath = none) (h2 : d.WindowsInterpreterAbsPath = none)
    (h3 : d.Path = some root) :
    (_import w fresh d).WindowsInterpreterPath = sEmpty ∧
    (_import w fresh d).WindowsInterpreterAbsPath = ntAbspath w (ntJoin root sEmpty) ∧
    (NormalAbs root → (_import w fresh d).WindowsInterpreterAbsPath = root) ∧
    (∀ v, d.VSVersion = some v → v ≠ sEmpty →
      w.regKeyExists (ntDirname (regkeyName v)) = true →
      w.regCreateFails (registerEntryKey v (_import w fresh d)) = false →
      ((registerWrites (_import w fresh d)).any fun p =>
        w.regWriteFails (registerEntryKey v (_import w fresh d)) p.1) = false →
      register w (_import w fresh d)
        = .ok (.success (registerEntryKey v (_import w fresh d))
            (registerWrites (_import w fresh d)))
        ∧ (sWindowsInterpreterPath, ntAbspath w (ntJoin root sEmpty))
            ∈ registerWrites (_import w fresh d)) := by
  have hob : ntIsAbs sEmpty = false := rfl
  have hwip : (_import w fresh d).WindowsInterpreterPath = sEmpty := by
    unfold _import
    simp [h1]
  have hwap : (_import w fresh d).WindowsInterpreterAbsPath
      = ntAbspath w (ntJoin root sEmpty) := by
    unfold _import
    simp [h1, h2, h3, hob]
  refine ⟨hwip, hwap, ?_, ?_⟩
  · intro hn
    rw [hwap]
    exact ntAbspath_join_empty_of_normal w root hn
  · intro v hv hne hk hcf hwf
    have hvv : (_import w fresh d).VSVersion = some v := by
      unfold _import
      simpa using hv
    refine ⟨register_ok_success w _ v hvv (beq_eq_false_iff_ne.mpr hne) hk hcf hwf, ?_⟩
    rw [← hwap]
    simp [registerWrites]

/-- Witness for C10 at the concrete root C:\Python39: the windowed absolute
path collapses to the root directory itself and appears as the windowed
value among the registered writes. -/
theorem windowed_interpreter_default_witness :
    (_import w39 ("g1")
      { Path := some ("C:\\Python39"), VSVersion := some ("15.0") }).WindowsInterpreterPath
        = sEmpty
      ∧ (_import w39 ("g1")
          { Path := some ("C:\\Python39"),
            VSVersion := some ("15.0") }).WindowsInterpreterAbsPath = ("C:\\Python39")
      ∧ (sWindowsInterpreterPath, ("C:\\Python39"))
          ∈ registerWrites (_import w39 ("g1")
              { Path := some ("C:\\Python39"), VSVersion := some ("15.0") }) := by
  have h := windowed_interpreter_default w39 ("g1")
    { Path := some ("C:\\Python39"), VSVersion := some ("15.0") } ("C:\\Python39") rfl rfl rfl
  refine ⟨h.1, ?_, ?_⟩
  · exact h.2.2.1 ⟨['C', ':'], [("Python39").data], rfl, by simp, by decide, rfl⟩
  · exact (h.2.2.2 ("15.0") rfl (by decide) rfl rfl rfl).2

/-- C2 counterexample: a directory that does contain python.exe on which the
call neither returns a descriptor nor returns no descriptor: the embedded
reconciliation raises the configuration error because no catalog version was
supplied, refuting that the two stated outcomes are the only ones. -/
theorem fromPythonInstallation_counterexample :
    fromPythonInstallation w39 ("g1") ({} : Kwargs) ("C:\\Python39")
      = .error .configError := rfl

/-- C2 amended: when python.exe is absent the call returns no descriptor;
when python.exe is present and the catalog preconditions hold (a nonempty
CatalogVersion whose root exists, no explicit absolute path override) it
either raises the malformed identity error (a matching catalog entry whose
identity the uuid constructor rejects) or returns a descriptor whose absolute
interpreter path is the root joined with python.exe (literally the root text
followed by backslash python.exe on a normalised root) and whose description
defaults to the final path segment of the root; when python.exe is present
but the catalog preconditions fail the call raises the corresponding
reconciliation error instead. -/
theorem fromPythonInstallation_amended (w : World) (fresh dir : String) (k : Kwargs) :
    (w.pathExists (pyInstallPython w (ntAbspath w dir)) = false →
      fromPythonInstallation w fresh k dir = .ok none) ∧
    (∀ v, w.pathExists (pyInstallPython w (ntAbspath w dir)) = true →
      k.VSVersion = some v → v ≠ sEmpty →
      w.regKeyExists (ntDirname (regkeyName v)) = true →
      k.InterpreterAbsPath = none →
      fromPythonInstallation w fresh k dir = .error .malformedIdentity ∨
      ∃ i, fromPythonInstallation w fresh k dir = .ok (some i) ∧
        i.InterpreterAbsPath = pyInstallPython w (ntAbspath w dir) ∧
        (NormalAbs (ntAbspath w dir) →
          i.InterpreterAbsPath = ntAbspath w dir ++ ("\\python.exe")) ∧
        (k.Description = none → i.Description = ntBasename (ntAbspath w dir))) ∧
    (w.pathExists (pyInstallPython w (ntAbspath w dir)) = true →
      vsFalsyK k = true →
      fromPythonInstallation w fresh k dir = .error .configError) ∧
    (∀ v, w.pathExists (pyInstallPython w (ntAbspath w dir)) = true →
      k.VSVersion = some v → v ≠ sEmpty →
      w.regKeyExists (ntDirname (regkeyName v)) = false →
      fromPythonInstallation w fresh k dir = .error .notPresent) := by
  obtain ⟨hpPath, hpIP, hpDesc, hpIAP, hpVSV⟩ := instArgsW_proj w k (ntAbspath w dir)
  obtain ⟨hfId, hfBI, hfPath, hfDesc, hfIP, hfIAP, hfWIP, hfWIAP, hfPEV, hfVSV⟩ :=
    applyProbes_fixed w (pyInstallPython w (ntAbspath w dir)) (instArgsW w k (ntAbspath w dir))
  set i0 := _import w fresh (applyProbes w (pyInstallPython w (ntAbspath w dir))
    (instArgsW w k (ntAbspath w dir))) with hi0
  have hVSV : i0.VSVersion = k.VSVersion := by
    rw [hi0]
    unfold _import
    simp only [hfVSV, hpVSV]
  refine ⟨?_, ?_, ?_, ?_⟩
  · intro hnp
    unfold fromPythonInstallation
    simp [hnp]
  · intro v hp hkv hne hroot hika
    have hvf : (v == sEmpty) = false := beq_eq_false_iff_ne.mpr hne
    have hvv : i0.VSVersion = some v := hVSV.trans hkv
    have hIAP : i0.InterpreterAbsPath
        = ntAbspath w (ntJoin (ntAbspath w dir) sPythonExe) := by
      rw [hi0]
      unfold _import
      simp only [hfIAP, hpIAP, hika, Option.getD_none, hfIP, hpIP, Option.getD_some,
        hfPath, hpPath]
      rfl
    have hDe : k.Description = none → i0.Description = ntBasename (ntAbspath w dir) := by
      intro hkd
      rw [hi0]
      unfold _import
      simp only [hfDesc, hpDesc, Option.getD_some, hkd, Option.getD_none]
    have hstep : fromPythonInstallation w fresh k dir
        = (match resolve w i0 with
           | .ok j => .ok (some j)
           | .error e => .error e) := by
      unfold fromPythonInstallation
      simp only [hp, if_true]
    rcases resolve_outcomes w i0 v hvv hvf hroot with hres | ⟨g, hres⟩ | hres
    · refine Or.inr ⟨i0, ?_, hIAP, ?_, hDe⟩
      · rw [hstep, hres]
      · intro hn
        exact hIAP.trans (ntAbspath_join_pexe_of_normal w (ntAbspath w dir) hn)
    · refine Or.inr ⟨{ i0 with GUID := g, BaseInterpreter := g }, ?_, hIAP, ?_, hDe⟩
      · rw [hstep, hres]
      · intro hn
        exact hIAP.trans (ntAbspath_join_pexe_of_normal w (ntAbspath w dir) hn)
    · refine Or.inl ?_
      rw [hstep, hres]
  · intro hp hfalsy
    have hresE : resolve w i0 = .error .configError := by
      unfold resolve
      cases hkv : k.VSVersion with
      | none => rw [hVSV, hkv]
      | some v =>
        rw [hVSV, hkv]
        unfold vsFalsyK at hfalsy
        rw [hkv] at hfalsy
        have hf2 : (v == sEmpty) = true := hfalsy
        simp only [hf2, if_true]
    unfold fromPythonInstallation
    simp only [hp, if_true]
    rw [← hi0, hresE]
  · intro v hp hkv hne hroot
    have hvf : (v == sEmpty) = false := beq_eq_false_iff_ne.mpr hne
    have hresE : resolve w i0 = .error .notPresent := by
      unfold resolve
      rw [hVSV, hkv]
      simp only [hvf, Bool.false_eq_true, if_false, hroot]
    unfold fromPythonInstallation
    simp only [hp, if_true]
    rw [← hi0, hresE]

/-- Witness for C2 amended: the machine with C:\Python39 yields a descriptor
whose absolute interpreter path and default description are as stated, and a
root without python.exe yields none. -/
theorem fromPythonInstallation_amended_witness :
    (fromPythonInstallation w39 ("g1") kwargs15 ("C:\\Python39")).map
        (Option.map fun i => (i.InterpreterAbsPath, i.Description))
      = .ok (some (("C:\\Python39\\python.exe"), ("Python39")))
      ∧ fromPythonInstallation w39 ("g1") kwargs15 ("C:\\Python38") = .ok none := by
  constructor
  · rcases (fromPythonInstallation_amended w39 ("g1") ("C:\\Python39") kwargs15).2.1 ("15.0")
        rfl rfl (by decide) rfl rfl with herr | ⟨i, hi, hiap, hnorm, hdesc⟩
    · have hval : fromPythonInstallation w39 ("g1") kwargs15 ("C:\\Python39")
          = .ok (some iPy39) := rfl
      exact Except.noConfusion (hval.symm.trans herr)
    · rw [hi]
      show Except.ok (some (i.InterpreterAbsPath, i.Description)) = _
      rw [hnorm ⟨['C', ':'], [("Python39").data], rfl, by simp, by decide, rfl⟩, hdesc rfl]
      rfl
  · exact (fromPythonInstallation_amended w39 ("g1") ("C:\\Python38") kwargs15).1 rfl

/-- C7: with the environment interpreter present and the base directory
located, a failing base resolution yields no environment descriptor, while a
successful one yields a descriptor whose BaseInterpreterIdentity equals the
base identity and whose description defaults to the environment name followed
by the base description in parentheses. -/
theorem venv_base_resolution (w : World) (fb fe : String) (k : Kwargs)
    (directory basedir : String)
    (hp : w.pathExists (venvPython w (ntAbspath w directory)) = true)
    (hb : venvBase w (ntAbspath w directory) = BaseAssign.dir basedir) :
    (fromPythonInstallation w fb k basedir = .ok none →
      fromVirtualEnvironment w fb fe k directory = .ok none) ∧
    (∀ base, fromPythonInstallation w fb k basedir = .ok (some base) →
      ∃ i, fromVirtualEnvironment w fb fe k directory = .ok (some i) ∧
        i.BaseInterpreter = base.GUID ∧
        (k.Description = none →
          i.Description
            = ntBasename (ntAbspath w directory) ++ (" (") ++ base.Description ++ (")"))) := by
  have hguard : (!(w.pathExists (venvOrigMarker w (ntAbspath w directory)))
      && !(w.pathExists (venvCfgPath w (ntAbspath w directory)))) = false := by
    cases ho : w.pathExists (venvOrigMarker w (ntAbspath w directory)) with
    | true => rfl
    | false =>
      cases hcf : w.pathExists (venvCfgPath w (ntAbspath w directory)) with
      | true => rfl
      | false =>
        rw [venvBase_unbound w (ntAbspath w directory) ho hcf] at hb
        exact absurd hb (by simp)
  constructor
  · intro hnone
    unfold fromVirtualEnvironment
    simp only [hp, if_true, hguard, Bool.false_eq_true, if_false, hb, hnone]
  · intro base hsome
    obtain ⟨hvPath, hvBI, hvIP, hvDesc, hvVSV⟩ :=
      venvArgsW_proj w k (ntAbspath w directory) base
    obtain ⟨hfId, hfBI, hfPath, hfDesc, hfIP, hfIAP, hfWIP, hfWIAP, hfPEV, hfVSV⟩ :=
      applyProbes_fixed w (venvPython w (ntAbspath w directory))
        (venvArgsW w k (ntAbspath w directory) base)
    refine ⟨_import w fe (applyProbes w (venvPython w (ntAbspath w directory))
        (venvArgsW w k (ntAbspath w directory) base)), ?_, ?_, ?_⟩
    · unfold fromVirtualEnvironment
      simp only [hp, if_true, hguard, Bool.false_eq_true, if_false, hb, hsome]
    · unfold _import
      simp only [hfBI, hvBI, Option.getD_some]
    · intro hkd
      unfold _import
      simp only [hfDesc, hvDesc, Option.getD_some, hkd, Option.getD_none]

/-- Witness for C7: the concrete environment at C:\envs\my over the base at
C:\Python39 yields a descriptor inheriting the base identity b1 and the
defaulted description. -/
theorem venv_base_resolution_witness :
    (fromVirtualEnvironment wVenv ("b1") ("e1") kwargs15 ("C:\\envs\\my")).map
        (Option.map fun i => (i.BaseInterpreter, i.Description))
      = .ok (some (("b1"), ("my (Python39)"))) := by
  obtain ⟨i, hi, hbi, hdesc⟩ :=
    (venv_base_resolution wVenv ("b1") ("e1") kwargs15 ("C:\\envs\\my") ("C:\\Python39")
      rfl rfl).2 { iPy39 with GUID := ("b1"), BaseInterpreter := ("b1") } rfl
  rw [hi]
  show Except.ok (some (i.BaseInterpreter, i.Description)) = _
  rw [hbi, hdesc rfl]
  rfl

/-- C1: at a machine whose configuration section lists one resolvable
installation directory and a description override, from_section resolves the
descriptor and applies the override, but the loop applying it consumes the
lazy filter built over the comprehension, and the function returns that
already exhausted iterator: the caller receives the empty sequence rather
than the overridden descriptor; a missing section raises the lookup error. -/
theorem fromSection_exhausted_iterator :
    fromSection w39 (fun _ => ("g1")) kwargs15 cfgC1 ("ptvs")
      = .ok (PySeq.exhaustedIter [{ iPy39 with Description := ("Custom Python") }])
      ∧ PySeq.toCallerList
          (PySeq.exhaustedIter [{ iPy39 with Description := ("Custom Python") }])
        = ([] : List PTVSInterpreter)
      ∧ fromSection w39 (fun _ => ("g1")) kwargs15 cfgC1 ("other") = .error .sectionMissing :=
  ⟨rfl, rfl, rfl⟩

end VsgenPtvs
